import Mathlib

/-!
Shallow embedding of the pyker poker hand evaluator
(src/pyker/cards.py, src/pyker/rating.py, src/pyker/utils.py).

Card collections are modelled as `List Card` (Python passes ordered
collections such as tuples; Python's `sorted` is stable, which we model
with `List.insertionSort` and non-strict key comparisons).  Python `set`
values are canonicalised before use exactly where the source sorts them.
Operations that can raise at runtime (`max` over an empty grouping,
indexing an empty list) are modelled with `Option`: `none` is a crash.
-/

set_option maxHeartbeats 1000000
set_option maxRecDepth 8000

/-- `Rank` from cards.py: thirteen values with ordering 2..14. -/
inductive Rank where
  | two | three | four | five | six | seven | eight | nine | ten
  | jack | queen | king | ace
deriving DecidableEq, Repr, Fintype

/-- `Rank.ordering` (value[0] in cards.py). -/
def Rank.ordering : Rank → Nat
  | .two => 2 | .three => 3 | .four => 4 | .five => 5 | .six => 6
  | .seven => 7 | .eight => 8 | .nine => 9 | .ten => 10
  | .jack => 11 | .queen => 12 | .king => 13 | .ace => 14

/-- `Rank.symbol` (value[1] in cards.py). -/
def Rank.symbol : Rank → String
  | .two => "2" | .three => "3" | .four => "4" | .five => "5" | .six => "6"
  | .seven => "7" | .eight => "8" | .nine => "9" | .ten => "10"
  | .jack => "J" | .queen => "Q" | .king => "K" | .ace => "A"

/-- `Suit` from cards.py: four values with ordering 1..4. -/
inductive Suit where
  | spades | hearts | diamonds | clubs
deriving DecidableEq, Repr, Fintype

/-- `Suit.ordering` (value[0] in cards.py). -/
def Suit.ordering : Suit → Nat
  | .spades => 4 | .hearts => 3 | .diamonds => 2 | .clubs => 1

/-- `Suit.symbol`: the display glyph (value[1] in cards.py).  The spade,
heart and diamond glyphs carry the U+FE0E text-presentation selector in
the source; the club glyph does not. -/
def Suit.symbol : Suit → String
  | .spades => "♠︎"
  | .hearts => "♥︎"
  | .diamonds => "♦︎"
  | .clubs => "♣"

/-- `Card = namedtuple('Card', ['rank', 'suit'])` from cards.py. -/
structure Card where
  rank : Rank
  suit : Suit
deriving DecidableEq, Repr, Fintype

/-- `HAND_SIZE = 5` from constants.py (same constant in pyker.py). -/
def HAND_SIZE : Nat := 5

/-- `HandType` from rating.py: the ten categories with ordering 1..10. -/
inductive HandType where
  | royal_flush | straight_flush | four_of_a_kind | full_house | flush
  | straight | three_of_a_kind | two_pair | pair | high_card
deriving DecidableEq, Repr, Fintype

/-- `HandType.ordering` (value[0] in rating.py). -/
def HandType.ordering : HandType → Nat
  | .royal_flush => 10 | .straight_flush => 9 | .four_of_a_kind => 8
  | .full_house => 7 | .flush => 6 | .straight => 5
  | .three_of_a_kind => 4 | .two_pair => 3 | .pair => 2 | .high_card => 1

/-- Sort key for Python `sorted(cards, key=lambda c: c.rank)`:
ranks compare by their ordering. -/
def rankKey (c : Card) : Nat := c.rank.ordering

/-- Sort key for Python `sorted(cards)` on the `(rank, suit)` namedtuple:
lexicographic on (rank ordering, suit ordering).  Since suit orderings are
below 8 this single Nat key realises the lexicographic order. -/
def fullKey (c : Card) : Nat := c.rank.ordering * 8 + c.suit.ordering

/-- Stable ascending sort by a Nat key: models Python `sorted(l, key=key)`
(Python sort is stable; so is insertion sort with a non-strict comparison). -/
def sortAscBy (key : α → Nat) (l : List α) : List α :=
  l.insertionSort (fun a b => key a ≤ key b)

/-- Stable descending sort by a Nat key: models
`sorted(l, key=key, reverse=True)` (ties keep list order). -/
def sortDescBy (key : α → Nat) (l : List α) : List α :=
  l.insertionSort (fun a b => key b ≤ key a)

/-- `len(set(map(rank, window))) == 1` for a window (nonempty in use). -/
def allSameRank : List Card → Bool
  | [] => false
  | c :: rest => rest.all (fun d => d.rank == c.rank)

/-- `find_highest_n_of_a_kind(cards, n)` from rating.py: sort descending
by rank, scan windows of size `n` for single-rank membership, return the
first (highest) window.  The `n is None` guard has no Lean counterpart. -/
def find_highest_n_of_a_kind (cards : List Card) (n : Nat) : Option (List Card) :=
  if n < 2 ∨ cards.length < n then none
  else
    (((List.range ((sortDescBy rankKey cards).length - n + 1)).filter
      (fun i => allSameRank (((sortDescBy rankKey cards).drop i).take n))).head?).map
      (fun i => ((sortDescBy rankKey cards).drop i).take n)

/-- Python `set(cards) - set(w)`, used as input of another detection pass;
`set(...)` deduplicates, the difference keeps cards not in `w`. -/
def diffSet (cards w : List Card) : List Card :=
  (cards.filter (fun c => !(w.contains c))).dedup

/-- `has_pair` from rating.py. -/
def has_pair (cards : List Card) : Bool :=
  (find_highest_n_of_a_kind cards 2).isSome

/-- `has_two_pair` from rating.py (the `and` short-circuits, so the
difference is only formed when the first pair exists). -/
def has_two_pair (cards : List Card) : Bool :=
  has_pair cards &&
    match find_highest_n_of_a_kind cards 2 with
    | some w => has_pair (diffSet cards w)
    | none => false

/-- `has_three_of_a_kind` from rating.py. -/
def has_three_of_a_kind (cards : List Card) : Bool :=
  (find_highest_n_of_a_kind cards 3).isSome

/-- `has_four_of_a_kind` from rating.py. -/
def has_four_of_a_kind (cards : List Card) : Bool :=
  (find_highest_n_of_a_kind cards 4).isSome

/-- `has_full_house` from rating.py. -/
def has_full_house (cards : List Card) : Bool :=
  has_three_of_a_kind cards &&
    match find_highest_n_of_a_kind cards 3 with
    | some w => has_pair (diffSet cards w)
    | none => false

/-- Second stage of `_get_sorted_cards_for_straight_check`: keep a card
iff it is first or its rank differs from its immediate predecessor in
the (sorted) list. -/
def dedupAdjAux (prev : Card) : List Card → List Card
  | [] => []
  | d :: rest => (if d.rank == prev.rank then [] else [d]) ++ dedupAdjAux d rest

/-- Rank-deduplication by adjacent comparison (cards arrive sorted). -/
def dedupAdj : List Card → List Card
  | [] => []
  | c :: rest => c :: dedupAdjAux c rest

/-- Third stage of `_get_sorted_cards_for_straight_check`: if an ace is
present, stash (a copy of) the last ace at the front to enable wheel
detection. -/
def aceInsert (cards : List Card) : List Card :=
  match (cards.filter (fun c => c.rank == Rank.ace)).getLast? with
  | some a => a :: cards
  | none => cards

/-- `_get_sorted_cards_for_straight_check(cards)` from rating.py:
stable sort by rank, deduplicate by rank, stash an ace at the front. -/
def getSortedForStraight (cards : List Card) : List Card :=
  aceInsert (dedupAdj (sortAscBy rankKey cards))

/-- The scan of `find_best_straight` specialised to the length comparator
of `find_longest_straight` (`rank_fn(c, b) = len(c) - len(b)`;
`rank_fn(current, best) > 0` is `best.length < current.length`).
`find_highest_straight` is dead code in rating.py and is not embedded. -/
def straightFoldLongest : Card → List Card → List Card → List Card → List Card
  | _, [], current, best => if best.length < current.length then current else best
  | prev, cur :: rest, current, best =>
    if ((cur.rank.ordering : Int) - (prev.rank.ordering : Int) == 1)
        || (cur.rank == Rank.two && prev.rank == Rank.ace) then
      straightFoldLongest cur rest (current ++ [cur]) best
    else
      straightFoldLongest cur rest [cur] (if best.length < current.length then current else best)

/-- `find_longest_straight(cards)` from rating.py.  `none` models the
IndexError of `cards[0]` on an empty processed list. -/
def find_longest_straight (cards : List Card) : Option (List Card) :=
  match getSortedForStraight cards with
  | [] => none
  | c :: rest => some (straightFoldLongest c rest [c] [])

/-- `has_straight` from rating.py (the `and` guards the scan, so no crash). -/
def has_straight (cards : List Card) : Bool :=
  HAND_SIZE ≤ cards.length &&
    match find_longest_straight cards with
    | some run => HAND_SIZE ≤ run.length
    | none => false

/-- Gap list of a 4-card window in `has_straight_draw`: deltas above 1
between consecutive cards, treating a previous ace as rank ordering 1. -/
def gapsOf : List Card → List Int
  | [] => []
  | [_] => []
  | a :: b :: rest =>
    (let prevOrd : Int := if a.rank == Rank.ace then 1 else (a.rank.ordering : Int)
     let delta : Int := (b.rank.ordering : Int) - prevOrd
     if delta > 1 then [delta] else []) ++ gapsOf (b :: rest)

/-- The window scan of `has_straight_draw`: some 4-card contiguous window
of the processed sequence has exactly one gap, of size exactly 2.  The
source loop `i = 0; j = 4; while j <= len(cards)` runs `len + 1 - 4`
times (never, when the processed sequence has fewer than 4 cards), each
iteration examining the full window `cards[i:i+4]`. -/
def straightDrawWindowScan (cards : List Card) : Bool :=
  let p := getSortedForStraight cards
  (List.range (p.length + 1 - (HAND_SIZE - 1))).any
    (fun i => gapsOf ((p.drop i).take (HAND_SIZE - 1)) == [2])

/-- `has_straight_draw(cards)` from rating.py.  `none` models the crash of
`find_longest_straight` on an empty collection. -/
def has_straight_draw (cards : List Card) : Option Bool :=
  (find_longest_straight cards).map (fun run =>
    if run.length == HAND_SIZE - 1 then true
    else if run.length > HAND_SIZE - 1 then false
    else straightDrawWindowScan cards)

/-- Suits in order of first appearance: the key order of the
`defaultdict` built by `find_biggest_flush`. -/
def suitOrder (cards : List Card) : List Suit :=
  (cards.map Card.suit).foldl (fun acc s => if s ∈ acc then acc else acc ++ [s]) []

/-- `find_biggest_flush(cards)` from rating.py: group by suit in first
appearance order and take the largest group (Python `max` keeps the first
of equal-size groups).  `none` models the ValueError of `max` on an empty
grouping. -/
def find_biggest_flush (cards : List Card) : Option (List Card) :=
  match (suitOrder cards).map (fun s => cards.filter (fun c => c.suit == s)) with
  | [] => none
  | g :: gs => some (gs.foldl (fun best h => if best.length < h.length then h else best) g)

/-- `has_flush` from rating.py. -/
def has_flush (cards : List Card) : Bool :=
  HAND_SIZE ≤ cards.length &&
    match find_biggest_flush cards with
    | some f => HAND_SIZE ≤ f.length
    | none => false

/-- `has_straight_flush` from rating.py. -/
def has_straight_flush (cards : List Card) : Bool :=
  has_flush cards &&
    match find_biggest_flush cards with
    | some f => has_straight f
    | none => false

/-- `has_flush_draw(cards)` from rating.py; `none` models the ValueError
of `max` over the empty grouping. -/
def has_flush_draw (cards : List Card) : Option Bool :=
  (find_biggest_flush cards).map (fun f => f.length == HAND_SIZE - 1)

/-- `HandRating` from rating.py: category, participating cards, kickers. -/
structure HandRating where
  cards : List Card
  hand_type : HandType
  participating : List Card
  kickers : List Card
deriving DecidableEq, Repr

/-- `self.kickers = tuple(sorted(set(self.cards) - set(self.participating_cards),
reverse=True))` from rating.py. -/
def kickersOf (cards participating : List Card) : List Card :=
  sortDescBy fullKey (diffSet cards participating)

/-- Build a rating record the way `HandRating.__init__` finishes. -/
def mkRating (cards : List Card) (t : HandType) (part : List Card) : HandRating :=
  ⟨cards, t, part, kickersOf cards part⟩

/-- Python `lst[-HAND_SIZE:]`: the last `n` elements. -/
def lastN (n : Nat) (l : List α) : List α := l.drop (l.length - n)

/-- `HandRating.__init__` branch logic from rating.py, then
`rate_hand(cards) = HandRating(cards)`.  `none` models an uncaught
exception while constructing the rating (never reached; see the theorem
for claim C3). -/
def rate_hand (cards : List Card) : Option HandRating :=
  if has_straight_flush cards then
    match find_biggest_flush cards with
    | none => none
    | some flush =>
      match find_longest_straight flush with
      | none => none
      | some run =>
        let part := lastN HAND_SIZE run
        match part.head? with
        | none => none
        | some c0 =>
          some (mkRating cards
            (if c0.rank = Rank.ten then HandType.royal_flush else HandType.straight_flush) part)
  else if has_four_of_a_kind cards then
    match find_highest_n_of_a_kind cards 4 with
    | some part => some (mkRating cards HandType.four_of_a_kind part)
    | none => none
  else if has_full_house cards then
    match find_highest_n_of_a_kind cards 3 with
    | none => none
    | some three =>
      match find_highest_n_of_a_kind (diffSet cards three) 2 with
      | none => none
      | some p => some (mkRating cards HandType.full_house (three ++ p))
  else if has_flush cards then
    match find_biggest_flush cards with
    | some flush => some (mkRating cards HandType.flush (lastN HAND_SIZE (sortAscBy fullKey flush)))
    | none => none
  else if has_straight cards then
    match find_longest_straight cards with
    | some run => some (mkRating cards HandType.straight (lastN HAND_SIZE run))
    | none => none
  else if has_three_of_a_kind cards then
    match find_highest_n_of_a_kind cards 3 with
    | some part => some (mkRating cards HandType.three_of_a_kind part)
    | none => none
  else if has_two_pair cards then
    match find_highest_n_of_a_kind cards 2 with
    | none => none
    | some first =>
      match find_highest_n_of_a_kind (diffSet cards first) 2 with
      | none => none
      | some second => some (mkRating cards HandType.two_pair (first ++ second))
  else if has_pair cards then
    match find_highest_n_of_a_kind cards 2 with
    | some part => some (mkRating cards HandType.pair part)
    | none => none
  else
    some (mkRating cards HandType.high_card [])

/-- Total view of `rate_hand` (justified by the theorem for claim C3:
construction never fails). -/
def ratingOf (cards : List Card) : HandRating :=
  (rate_hand cards).getD (mkRating cards HandType.high_card [])

/-- `HandRating.ranks`: ranks of the participating cards. -/
def ranksOf (r : HandRating) : List Rank := r.participating.map Card.rank

/-- `HandRating.num_kickers = HAND_SIZE - len(participating_cards)`
(participating counts never exceed 5 for ratings the evaluator builds). -/
def numKickers (r : HandRating) : Nat := HAND_SIZE - r.participating.length

/-- Python list comparison on rank lists (elementwise by enum ordering,
then by length). -/
def cmpRankList : List Rank → List Rank → Ordering
  | [], [] => .eq
  | [], _ :: _ => .lt
  | _ :: _, [] => .gt
  | a :: as, b :: bs =>
    match compare a.ordering b.ordering with
    | .eq => cmpRankList as bs
    | o => o

/-- `HandRating.get_distinct_kicker_ranks` from rating.py: set difference
of the kicker card sets, sorted descending (full card order), truncated
to `self.num_kickers`, projected to ranks. -/
def get_distinct_kicker_ranks (a b : HandRating) : List Rank × List Rank :=
  let my := sortDescBy fullKey ((a.kickers.dedup).filter (fun c => !(b.kickers.contains c)))
  let their := sortDescBy fullKey ((b.kickers.dedup).filter (fun c => !(a.kickers.contains c)))
  ((my.take (numKickers a)).map Card.rank, (their.take (numKickers a)).map Card.rank)

/-- `HandRating.__eq__` from rating.py. -/
def ratingEq (a b : HandRating) : Bool :=
  if a.hand_type ≠ b.hand_type then false
  else if ranksOf a ≠ ranksOf b then false
  else if numKickers a == 0 then true
  else
    let (m, t) := get_distinct_kicker_ranks a b
    m == t

/-- `HandRating.__gt__` from rating.py. -/
def ratingGt (a b : HandRating) : Bool :=
  if a.hand_type.ordering > b.hand_type.ordering then true
  else if a.hand_type.ordering < b.hand_type.ordering then false
  else if cmpRankList (ranksOf a) (ranksOf b) == Ordering.gt then true
  else if cmpRankList (ranksOf a) (ranksOf b) == Ordering.lt then false
  else if numKickers a == 0 then false
  else
    let (m, t) := get_distinct_kicker_ranks a b
    cmpRankList m t == Ordering.gt

/-- `__lt__` as derived by `functools.total_ordering` from `__eq__` and
`__gt__`: `a < b` iff neither `a > b` nor `a == b`. -/
def ratingLt (a b : HandRating) : Bool :=
  !(ratingGt a b || ratingEq a b)

/-- `check_draws(cards, hand_type)` from rating.py; `none` models the
crash of the flush-draw (or straight-draw) check. -/
def check_draws (cards : List Card) (hand_type : HandType) : Option (List String) :=
  if hand_type.ordering ≤ HandType.straight.ordering then
    match has_flush_draw cards, has_straight_draw cards with
    | some fd, some sd =>
      some ((if fd then ["Flush draw"] else []) ++ (if sd then ["Straight draw"] else []))
    | _, _ => none
  else
    some []

/-- `Rank.for_symbol` via `OrderedEnum.for_symbol` from utils.py:
first enum member (declaration order) whose symbol matches. -/
def Rank.for_symbol (s : String) : Option Rank :=
  ([Rank.two, .three, .four, .five, .six, .seven, .eight, .nine, .ten,
    .jack, .queen, .king, .ace]).find? (fun r => r.symbol == s)

/-- `Suit.for_symbol` via `OrderedEnum.for_symbol` from utils.py. -/
def Suit.for_symbol (s : String) : Option Suit :=
  ([Suit.spades, .hearts, .diamonds, .clubs]).find? (fun v => v.symbol == s)

/-- `Suit.for_letter` from cards.py: uppercase the token and look it up
in the letter table. -/
def Suit.for_letter (s : String) : Option Suit :=
  if s.toUpper == "C" then some .clubs
  else if s.toUpper == "D" then some .diamonds
  else if s.toUpper == "H" then some .hearts
  else if s.toUpper == "S" then some .spades
  else none

/-- `get_card(rank, suit)` from cards.py; `none` models the ValueError
on an unknown rank or suit token. -/
def get_card (rank suit : String) : Option Card :=
  match Rank.for_symbol rank with
  | none => none
  | some r =>
    match Suit.for_letter suit with
    | some s => some ⟨r, s⟩
    | none =>
      match Suit.for_symbol suit with
      | some s => some ⟨r, s⟩
      | none => none

/-- Kicker resolution stated the way the (amended) specification words
it: symmetric difference of the two sides' kicker card sets, project to
ranks, sort those descending, truncate to the open kicker slots
(5 minus participating count), compare lexicographically. -/
def cardSetKickerCmp (a b : HandRating) : Ordering :=
  let slots := HAND_SIZE - a.participating.length
  let mine :=
    (sortDescBy Rank.ordering
      (((a.kickers.dedup).filter (fun c => !(b.kickers.contains c))).map Card.rank)).take slots
  let theirs :=
    (sortDescBy Rank.ordering
      (((b.kickers.dedup).filter (fun c => !(a.kickers.contains c))).map Card.rank)).take slots
  cmpRankList mine theirs

/-- Kicker resolution exactly as claim C2 words it (symmetric difference
of the kicker RANK sets, so a rank present on both sides is dropped even
when the cards carrying it differ in suit), used to refute that claim. -/
def rankSetKickerCmp (a b : HandRating) : Ordering :=
  let slots := HAND_SIZE - a.participating.length
  let aR := (a.kickers.map Card.rank).dedup
  let bR := (b.kickers.map Card.rank).dedup
  let mine := (sortDescBy Rank.ordering (aR.filter (fun r => !(bR.contains r)))).take slots
  let theirs := (sortDescBy Rank.ordering (bR.filter (fun r => !(aR.contains r)))).take slots
  cmpRankList mine theirs

/-! Rank-level mirrors of the card-level evaluator functions.  Each card
function projects onto its mirror along `List.map Card.rank`; the mirrors
let us reason about which results depend only on the multiset of ranks. -/

/-- Rank-level mirror of `allSameRank`. -/
def allSameRankR : List Rank → Bool
  | [] => false
  | r :: rest => rest.all (fun s => s == r)

/-- Rank-level mirror of `find_highest_n_of_a_kind`. -/
def find_highest_ranks (ranks : List Rank) (n : Nat) : Option (List Rank) :=
  if n < 2 ∨ ranks.length < n then none
  else
    (((List.range ((sortDescBy Rank.ordering ranks).length - n + 1)).filter
      (fun i => allSameRankR (((sortDescBy Rank.ordering ranks).drop i).take n))).head?).map
      (fun i => ((sortDescBy Rank.ordering ranks).drop i).take n)

/-- Rank-level mirror of `dedupAdjAux`. -/
def dedupAdjAuxR (prev : Rank) : List Rank → List Rank
  | [] => []
  | d :: rest => (if d == prev then [] else [d]) ++ dedupAdjAuxR d rest

/-- Rank-level mirror of `dedupAdj`. -/
def dedupAdjR : List Rank → List Rank
  | [] => []
  | r :: rest => r :: dedupAdjAuxR r rest

/-- Rank-level mirror of `aceInsert`. -/
def aceInsertR (ranks : List Rank) : List Rank :=
  match (ranks.filter (fun r => r == Rank.ace)).getLast? with
  | some a => a :: ranks
  | none => ranks

/-- Rank-level mirror of `getSortedForStraight`. -/
def processedRanks (ranks : List Rank) : List Rank :=
  aceInsertR (dedupAdjR (sortAscBy Rank.ordering ranks))

/-- Rank-level mirror of `straightFoldLongest`. -/
def straightFoldLongestR : Rank → List Rank → List Rank → List Rank → List Rank
  | _, [], current, best => if best.length < current.length then current else best
  | prev, cur :: rest, current, best =>
    if ((cur.ordering : Int) - (prev.ordering : Int) == 1)
        || (cur == Rank.two && prev == Rank.ace) then
      straightFoldLongestR cur rest (current ++ [cur]) best
    else
      straightFoldLongestR cur rest [cur] (if best.length < current.length then current else best)

/-- Rank-level mirror of `find_longest_straight`. -/
def findLongestRanks (ranks : List Rank) : Option (List Rank) :=
  match processedRanks ranks with
  | [] => none
  | r :: rest => some (straightFoldLongestR r rest [r] [])

/-! ### Helper lemmas about the guards -/

theorem has_flush_elim {cards : List Card} (h : has_flush cards = true) :
    HAND_SIZE ≤ cards.length ∧ ∃ f, find_biggest_flush cards = some f ∧ HAND_SIZE ≤ f.length := by
  unfold has_flush at h
  rw [Bool.and_eq_true] at h
  obtain ⟨h1, h2⟩ := h
  refine ⟨by simpa using h1, ?_⟩
  cases hf : find_biggest_flush cards with
  | none => rw [hf] at h2; simp at h2
  | some f => rw [hf] at h2; exact ⟨f, rfl, by simpa using h2⟩

theorem has_straight_elim {cards : List Card} (h : has_straight cards = true) :
    HAND_SIZE ≤ cards.length ∧
      ∃ run, find_longest_straight cards = some run ∧ HAND_SIZE ≤ run.length := by
  unfold has_straight at h
  rw [Bool.and_eq_true] at h
  obtain ⟨h1, h2⟩ := h
  refine ⟨by simpa using h1, ?_⟩
  cases hf : find_longest_straight cards with
  | none => rw [hf] at h2; simp at h2
  | some run => rw [hf] at h2; exact ⟨run, rfl, by simpa using h2⟩

theorem has_straight_flush_elim {cards : List Card} (h : has_straight_flush cards = true) :
    has_flush cards = true ∧
      ∃ f, find_biggest_flush cards = some f ∧ has_straight f = true := by
  unfold has_straight_flush at h
  rw [Bool.and_eq_true] at h
  obtain ⟨h1, h2⟩ := h
  refine ⟨h1, ?_⟩
  cases hf : find_biggest_flush cards with
  | none => rw [hf] at h2; simp at h2
  | some f => rw [hf] at h2; exact ⟨f, rfl, h2⟩

theorem has_full_house_elim {cards : List Card} (h : has_full_house cards = true) :
    ∃ three, find_highest_n_of_a_kind cards 3 = some three ∧
      has_pair (diffSet cards three) = true := by
  unfold has_full_house at h
  rw [Bool.and_eq_true] at h
  obtain ⟨-, h2⟩ := h
  cases hf : find_highest_n_of_a_kind cards 3 with
  | none => rw [hf] at h2; simp at h2
  | some three => rw [hf] at h2; exact ⟨three, rfl, h2⟩

theorem has_two_pair_elim {cards : List Card} (h : has_two_pair cards = true) :
    ∃ first, find_highest_n_of_a_kind cards 2 = some first ∧
      has_pair (diffSet cards first) = true := by
  unfold has_two_pair at h
  rw [Bool.and_eq_true] at h
  obtain ⟨-, h2⟩ := h
  cases hf : find_highest_n_of_a_kind cards 2 with
  | none => rw [hf] at h2; simp at h2
  | some first => rw [hf] at h2; exact ⟨first, rfl, h2⟩

theorem lastN_length_of_le {l : List α} {n : Nat} (h : n ≤ l.length) :
    (lastN n l).length = n := by
  unfold lastN
  rw [List.length_drop]
  omega

theorem head?_isSome_of_ne_nil {l : List α} (h : l ≠ []) : l.head?.isSome = true := by
  cases l with
  | nil => exact absurd rfl h
  | cons a t => rfl

theorem find_biggest_flush_isSome {cards : List Card} (h : cards ≠ []) :
    (find_biggest_flush cards).isSome = true := by
  unfold find_biggest_flush
  cases cards with
  | nil => exact absurd rfl h
  | cons c rest =>
    have hmem : c.suit ∈ suitOrder (c :: rest) := by
      unfold suitOrder
      have base : ∀ (ss : List Suit) (acc : List Suit), c.suit ∈ acc →
          c.suit ∈ ss.foldl (fun acc s => if s ∈ acc then acc else acc ++ [s]) acc := by
        intro ss
        induction ss with
        | nil => intro acc hacc; simpa using hacc
        | cons s ss ih =>
          intro acc hacc
          simp only [List.foldl_cons]
          by_cases hs : s ∈ acc
          · rw [if_pos hs]; exact ih acc hacc
          · rw [if_neg hs]; exact ih (acc ++ [s]) (List.mem_append_left _ hacc)
      simp only [List.map_cons, List.foldl_cons, List.not_mem_nil, if_neg]
      exact base _ _ (by simp)
    cases hso : suitOrder (c :: rest) with
    | nil => rw [hso] at hmem; simp at hmem
    | cons s ss => simp

theorem getSortedForStraight_ne_nil {cards : List Card} (h : cards ≠ []) :
    getSortedForStraight cards ≠ [] := by
  unfold getSortedForStraight aceInsert
  have hsort : sortAscBy rankKey cards ≠ [] := by
    have hp := List.perm_insertionSort (fun a b => rankKey a ≤ rankKey b) cards
    intro hnil
    unfold sortAscBy at hnil
    rw [hnil] at hp
    exact h hp.nil_eq.symm
  have hded : dedupAdj (sortAscBy rankKey cards) ≠ [] := by
    cases hs : sortAscBy rankKey cards with
    | nil => exact absurd hs hsort
    | cons a t => simp [dedupAdj]
  cases hfl : (dedupAdj (sortAscBy rankKey cards)).filter (fun c => c.rank == Rank.ace) |>.getLast? with
  | none => simpa [hfl] using hded
  | some a => simp [hfl]

theorem find_longest_straight_isSome {cards : List Card} (h : cards ≠ []) :
    (find_longest_straight cards).isSome = true := by
  unfold find_longest_straight
  cases hg : getSortedForStraight cards with
  | nil => exact absurd hg (getSortedForStraight_ne_nil h)
  | cons c rest => simp

/-- Claim C3 (amended): `rate_hand` never fails, for inputs of any size:
every guarded branch of `HandRating.__init__` completes and yields a
rating. -/
theorem c3_rate_hand_never_fails (cards : List Card) : (rate_hand cards).isSome = true := by
  unfold rate_hand
  by_cases hsf : has_straight_flush cards = true
  · rw [if_pos hsf]
    obtain ⟨hf, f, hfbf, hs⟩ := has_straight_flush_elim hsf
    obtain ⟨-, run, hrun, hlen⟩ := has_straight_elim hs
    have hne : lastN HAND_SIZE run ≠ [] := by
      have := lastN_length_of_le (l := run) (n := HAND_SIZE) hlen
      intro hnil
      rw [hnil] at this
      simp [HAND_SIZE] at this
    cases hh : (lastN HAND_SIZE run).head? with
    | none =>
      have := head?_isSome_of_ne_nil hne
      rw [hh] at this
      simp at this
    | some c0 => simp [hfbf, hrun, hh]
  · rw [if_neg hsf]
    by_cases h4 : has_four_of_a_kind cards = true
    · rw [if_pos h4]
      unfold has_four_of_a_kind at h4
      cases hf : find_highest_n_of_a_kind cards 4 with
      | none => rw [hf] at h4; simp at h4
      | some part => simp
    · rw [if_neg h4]
      by_cases hfh : has_full_house cards = true
      · rw [if_pos hfh]
        obtain ⟨three, h3, hp⟩ := has_full_house_elim hfh
        unfold has_pair at hp
        cases hf : find_highest_n_of_a_kind (diffSet cards three) 2 with
        | none => rw [hf] at hp; simp at hp
        | some p => simp [h3, hf]
      · rw [if_neg hfh]
        by_cases hfl : has_flush cards = true
        · rw [if_pos hfl]
          obtain ⟨-, f, hfbf, -⟩ := has_flush_elim hfl
          rw [hfbf]
          simp
        · rw [if_neg hfl]
          by_cases hst : has_straight cards = true
          · rw [if_pos hst]
            obtain ⟨-, run, hrun, -⟩ := has_straight_elim hst
            rw [hrun]
            simp
          · rw [if_neg hst]
            by_cases h3 : has_three_of_a_kind cards = true
            · rw [if_pos h3]
              unfold has_three_of_a_kind at h3
              cases hf : find_highest_n_of_a_kind cards 3 with
              | none => rw [hf] at h3; simp at h3
              | some part => simp
            · rw [if_neg h3]
              by_cases h2p : has_two_pair cards = true
              · rw [if_pos h2p]
                obtain ⟨first, hfst, hp⟩ := has_two_pair_elim h2p
                unfold has_pair at hp
                cases hf : find_highest_n_of_a_kind (diffSet cards first) 2 with
                | none => rw [hf] at hp; simp at hp
                | some second => simp [hfst, hf]
              · rw [if_neg h2p]
                by_cases hp : has_pair cards = true
                · rw [if_pos hp]
                  unfold has_pair at hp
                  cases hf : find_highest_n_of_a_kind cards 2 with
                  | none => rw [hf] at hp; simp at hp
                  | some part => simp
                · rw [if_neg hp]
                  simp

/-- Claim C3 counterexample: `rate_hand` on a 4-card collection does not
fail with an InvalidInput error; it returns a rating (a pair here). -/
theorem c3_counterexample :
    ([(⟨Rank.two, Suit.spades⟩ : Card), ⟨Rank.two, Suit.diamonds⟩, ⟨Rank.five, Suit.clubs⟩,
      ⟨Rank.seven, Suit.hearts⟩].length = 4) ∧
    (rate_hand [⟨Rank.two, Suit.spades⟩, ⟨Rank.two, Suit.diamonds⟩, ⟨Rank.five, Suit.clubs⟩,
      ⟨Rank.seven, Suit.hearts⟩]).isSome = true ∧
    (ratingOf [⟨Rank.two, Suit.spades⟩, ⟨Rank.two, Suit.diamonds⟩, ⟨Rank.five, Suit.clubs⟩,
      ⟨Rank.seven, Suit.hearts⟩]).hand_type = HandType.pair := by
  refine ⟨rfl, ?_, ?_⟩ <;> decide

/-- Claim C10: `check_draws` returns normally on every non-empty card
collection; on the empty collection with a hand type of straight or
weaker it fails, because the flush-draw check takes the largest group of
an empty suit grouping. -/
theorem c10_check_draws_empty_vs_nonempty (cards : List Card) (hand_type : HandType) :
    (cards ≠ [] → (check_draws cards hand_type).isSome = true) ∧
    (cards = [] → hand_type.ordering ≤ HandType.straight.ordering →
      check_draws cards hand_type = none) := by
  constructor
  · intro hne
    unfold check_draws
    by_cases hle : hand_type.ordering ≤ HandType.straight.ordering
    · rw [if_pos hle]
      have h1 : (find_biggest_flush cards).isSome = true := find_biggest_flush_isSome hne
      have h2 : (find_longest_straight cards).isSome = true := find_longest_straight_isSome hne
      unfold has_flush_draw has_straight_draw
      cases hf : find_biggest_flush cards with
      | none => rw [hf] at h1; simp at h1
      | some f =>
        cases hs : find_longest_straight cards with
        | none => rw [hs] at h2; simp at h2
        | some run => simp [hf, hs]
    · rw [if_neg hle]; simp
  · intro he hle
    subst he
    unfold check_draws
    rw [if_pos hle]
    rfl

/-- Witness for claim C10 at concrete inputs. -/
theorem c10_witness :
    (check_draws [⟨Rank.two, Suit.spades⟩] HandType.high_card).isSome = true ∧
    check_draws [] HandType.high_card = none :=
  ⟨(c10_check_draws_empty_vs_nonempty [⟨Rank.two, Suit.spades⟩] HandType.high_card).1 (by decide),
   (c10_check_draws_empty_vs_nonempty [] HandType.high_card).2 rfl (by decide)⟩

theorem hand_type_straight_inversion {cards : List Card}
    (h : (ratingOf cards).hand_type = HandType.straight) : has_straight cards = true := by
  unfold ratingOf rate_hand at h
  by_cases hsf : has_straight_flush cards = true
  · rw [if_pos hsf] at h
    obtain ⟨hf, f, hfbf, hs⟩ := has_straight_flush_elim hsf
    obtain ⟨-, run, hrun, hlen⟩ := has_straight_elim hs
    have hne : lastN HAND_SIZE run ≠ [] := by
      have hl := lastN_length_of_le (l := run) (n := HAND_SIZE) hlen
      intro hnil; rw [hnil] at hl; simp [HAND_SIZE] at hl
    cases hh : (lastN HAND_SIZE run).head? with
    | none => have := head?_isSome_of_ne_nil hne; rw [hh] at this; simp at this
    | some c0 =>
      simp only [hfbf, hrun, hh] at h
      by_cases hc : c0.rank = Rank.ten
      · rw [if_pos hc] at h; simp [mkRating] at h
      · rw [if_neg hc] at h; simp [mkRating] at h
  · rw [if_neg hsf] at h
    by_cases h4 : has_four_of_a_kind cards = true
    · rw [if_pos h4] at h
      unfold has_four_of_a_kind at h4
      cases hf : find_highest_n_of_a_kind cards 4 with
      | none => rw [hf] at h4; simp at h4
      | some part => simp [hf, mkRating] at h
    · rw [if_neg h4] at h
      by_cases hfh : has_full_house cards = true
      · rw [if_pos hfh] at h
        obtain ⟨three, h3, hp⟩ := has_full_house_elim hfh
        unfold has_pair at hp
        cases hf : find_highest_n_of_a_kind (diffSet cards three) 2 with
        | none => rw [hf] at hp; simp at hp
        | some p => simp [h3, hf, mkRating] at h
      · rw [if_neg hfh] at h
        by_cases hfl : has_flush cards = true
        · rw [if_pos hfl] at h
          obtain ⟨-, f, hfbf, -⟩ := has_flush_elim hfl
          simp [hfbf, mkRating] at h
        · rw [if_neg hfl] at h
          by_cases hst : has_straight cards = true
          · exact hst
          · rw [if_neg hst] at h
            by_cases h3 : has_three_of_a_kind cards = true
            · rw [if_pos h3] at h
              unfold has_three_of_a_kind at h3
              cases hf : find_highest_n_of_a_kind cards 3 with
              | none => rw [hf] at h3; simp at h3
              | some part => simp [hf, mkRating] at h
            · rw [if_neg h3] at h
              by_cases h2p : has_two_pair cards = true
              · rw [if_pos h2p] at h
                obtain ⟨first, hfst, hp⟩ := has_two_pair_elim h2p
                unfold has_pair at hp
                cases hf : find_highest_n_of_a_kind (diffSet cards first) 2 with
                | none => rw [hf] at hp; simp at hp
                | some second => simp [hfst, hf, mkRating] at h
              · rw [if_neg h2p] at h
                by_cases hp : has_pair cards = true
                · rw [if_pos hp] at h
                  unfold has_pair at hp
                  cases hf : find_highest_n_of_a_kind cards 2 with
                  | none => rw [hf] at hp; simp at hp
                  | some part => simp [hf, mkRating] at h
                · rw [if_neg hp] at h
                  simp [mkRating] at h

/-- Claim C4 (amended): draw flags are never reported for hand types
strictly above straight (flush, straight flush, royal flush), and a made
straight never yields a straight-draw flag; a made straight can still
yield a flush-draw flag, because `check_draws` runs its checks whenever
the hand type is straight or weaker. -/
theorem c4_draw_flags_vs_made_hands (cards : List Card) :
    ((ratingOf cards).hand_type = HandType.flush ∨
      (ratingOf cards).hand_type = HandType.straight_flush ∨
      (ratingOf cards).hand_type = HandType.royal_flush →
        check_draws cards (ratingOf cards).hand_type = some []) ∧
    ((ratingOf cards).hand_type = HandType.straight →
      ∀ l, check_draws cards (ratingOf cards).hand_type = some l →
        ¬ ("Straight draw" ∈ l)) := by
  constructor
  · intro hd
    unfold check_draws
    rcases hd with h | h | h <;> rw [h] <;> simp [HandType.ordering]
  · intro h l hl hmem
    have hst := hand_type_straight_inversion h
    obtain ⟨hlen5, run, hrun, hrunlen⟩ := has_straight_elim hst
    have h5 : HAND_SIZE = 5 := rfl
    rw [h5] at hrunlen
    have hsd : has_straight_draw cards = some false := by
      unfold has_straight_draw
      rw [hrun]
      have h1 : (run.length == HAND_SIZE - 1) = false := by
        rw [h5]
        simp only [beq_eq_false_iff_ne, ne_eq]
        omega
      have h2 : run.length > HAND_SIZE - 1 := by rw [h5]; omega
      have h3 : ¬ run.length = HAND_SIZE - 1 := by rw [h5]; omega
      simp [h1, h2, h3]
    have hne : cards ≠ [] := by
      intro hnil; rw [hnil] at hlen5; simp [HAND_SIZE] at hlen5
    have hfd : (find_biggest_flush cards).isSome = true := find_biggest_flush_isSome hne
    rw [h] at hl
    cases hf : find_biggest_flush cards with
    | none => rw [hf] at hfd; simp at hfd
    | some f =>
      have hcd : check_draws cards HandType.straight =
          some (if (f.length == HAND_SIZE - 1) = true then ["Flush draw"] else []) := by
        unfold check_draws has_flush_draw
        rw [if_pos (by decide), hf, hsd]
        simp
      rw [hcd, Option.some_inj] at hl
      subst hl
      by_cases hb : (f.length == HAND_SIZE - 1) = true
      · rw [if_pos hb] at hmem; simp at hmem
      · rw [if_neg hb] at hmem; simp at hmem

/-- Claim C4 counterexample: a made straight (2..6 with four spades)
still reports a flush draw, so the returned draw set is not empty for
the hand type straight. -/
theorem c4_counterexample :
    (ratingOf [⟨Rank.two, Suit.spades⟩, ⟨Rank.three, Suit.spades⟩, ⟨Rank.four, Suit.spades⟩,
      ⟨Rank.five, Suit.spades⟩, ⟨Rank.six, Suit.hearts⟩]).hand_type = HandType.straight ∧
    check_draws [⟨Rank.two, Suit.spades⟩, ⟨Rank.three, Suit.spades⟩, ⟨Rank.four, Suit.spades⟩,
        ⟨Rank.five, Suit.spades⟩, ⟨Rank.six, Suit.hearts⟩]
      (ratingOf [⟨Rank.two, Suit.spades⟩, ⟨Rank.three, Suit.spades⟩, ⟨Rank.four, Suit.spades⟩,
        ⟨Rank.five, Suit.spades⟩, ⟨Rank.six, Suit.hearts⟩]).hand_type = some ["Flush draw"] := by
  refine ⟨?_, ?_⟩ <;> decide

/-- Witness for claim C4: a made flush reports no draws; a made straight
reports no straight draw. -/
theorem c4_witness :
    check_draws [⟨Rank.two, Suit.spades⟩, ⟨Rank.four, Suit.spades⟩, ⟨Rank.six, Suit.spades⟩,
        ⟨Rank.eight, Suit.spades⟩, ⟨Rank.ten, Suit.spades⟩]
      (ratingOf [⟨Rank.two, Suit.spades⟩, ⟨Rank.four, Suit.spades⟩, ⟨Rank.six, Suit.spades⟩,
        ⟨Rank.eight, Suit.spades⟩, ⟨Rank.ten, Suit.spades⟩]).hand_type = some [] ∧
    ∀ l, check_draws [⟨Rank.two, Suit.spades⟩, ⟨Rank.three, Suit.spades⟩,
        ⟨Rank.four, Suit.spades⟩, ⟨Rank.five, Suit.spades⟩, ⟨Rank.six, Suit.hearts⟩]
      (ratingOf [⟨Rank.two, Suit.spades⟩, ⟨Rank.three, Suit.spades⟩, ⟨Rank.four, Suit.spades⟩,
        ⟨Rank.five, Suit.spades⟩, ⟨Rank.six, Suit.hearts⟩]).hand_type = some l →
      ¬ ("Straight draw" ∈ l) :=
  ⟨(c4_draw_flags_vs_made_hands _).1 (Or.inl (by decide)),
   fun l hl => (c4_draw_flags_vs_made_hands _).2 (by decide) l hl⟩

/-- The window scan succeeds iff some COMPLETE 4-card contiguous window
of the processed sequence has gap list exactly [2].  In particular a
processed sequence shorter than 4 cards admits no window and the scan
reports false, as in the source, whose while loop then runs zero times. -/
theorem straightDrawWindowScan_spec (cards : List Card) :
    straightDrawWindowScan cards = true ↔
      ∃ i, i + (HAND_SIZE - 1) ≤ (getSortedForStraight cards).length ∧
        gapsOf (((getSortedForStraight cards).drop i).take (HAND_SIZE - 1)) = [2] := by
  unfold straightDrawWindowScan
  simp only [List.any_eq_true, List.mem_range, beq_iff_eq]
  constructor
  · rintro ⟨i, hi, hg⟩
    exact ⟨i, by omega, hg⟩
  · rintro ⟨i, hi, hg⟩
    exact ⟨i, by omega, hg⟩

/-- Witness for straightDrawWindowScan_spec: ranks 3-4-6-7-J contain the
window 3-4-6-7 whose single gap is 2, and conversely. -/
theorem straightDrawWindowScan_spec_witness :
    straightDrawWindowScan [⟨Rank.three, Suit.spades⟩, ⟨Rank.four, Suit.diamonds⟩,
      ⟨Rank.six, Suit.spades⟩, ⟨Rank.seven, Suit.diamonds⟩, ⟨Rank.jack, Suit.hearts⟩] = true :=
  (straightDrawWindowScan_spec _).2 ⟨0, by decide, by decide⟩

/-- Claim C7 (amended): for a non-empty card collection, a straight draw
is reported iff (a) the longest run spans exactly 4 cards, or (b) the
longest run is shorter than 4 and some 4-card contiguous window of the
rank-deduplicated, wheel-aware ascending sequence contains exactly one
internal gap of size exactly 2.  When the longest run already spans 5 or
more cards the window scan is ignored and no draw is reported. -/
theorem c7_straight_draw_characterisation (cards : List Card) (h : cards ≠ []) :
    ∃ run, find_longest_straight cards = some run ∧
      has_straight_draw cards =
        some ((run.length == HAND_SIZE - 1) ||
          (decide (run.length < HAND_SIZE - 1) && straightDrawWindowScan cards)) := by
  have hs := find_longest_straight_isSome h
  cases hrun : find_longest_straight cards with
  | none => rw [hrun] at hs; simp at hs
  | some run =>
    refine ⟨run, rfl, ?_⟩
    unfold has_straight_draw
    rw [hrun]
    have h5 : HAND_SIZE = 5 := rfl
    by_cases h4 : run.length = HAND_SIZE - 1
    · have hb : (run.length == HAND_SIZE - 1) = true := by simp [h4]
      simp [h4, hb]
    · have hb : (run.length == HAND_SIZE - 1) = false := by simp [h4]
      by_cases hgt : run.length > HAND_SIZE - 1
      · have hlt : ¬ run.length < HAND_SIZE - 1 := by omega
        simp [hb, h4, hgt, hlt]
      · have hlt : run.length < HAND_SIZE - 1 := by omega
        simp [hb, h4, hgt, hlt]

/-- Witness for claim C7: ranks {3,4,6,7} plus an unrelated jack report a
straight draw (the window 3-4-6-7 has the single gap 2 at rank 5). -/
theorem c7_witness :
    has_straight_draw [⟨Rank.three, Suit.spades⟩, ⟨Rank.four, Suit.diamonds⟩,
      ⟨Rank.six, Suit.spades⟩, ⟨Rank.seven, Suit.diamonds⟩, ⟨Rank.jack, Suit.hearts⟩] =
        some true := by
  obtain ⟨run, h1, h2⟩ := c7_straight_draw_characterisation
    [⟨Rank.three, Suit.spades⟩, ⟨Rank.four, Suit.diamonds⟩,
      ⟨Rank.six, Suit.spades⟩, ⟨Rank.seven, Suit.diamonds⟩, ⟨Rank.jack, Suit.hearts⟩]
    (by decide)
  have hconc : find_longest_straight [⟨Rank.three, Suit.spades⟩, ⟨Rank.four, Suit.diamonds⟩,
      ⟨Rank.six, Suit.spades⟩, ⟨Rank.seven, Suit.diamonds⟩, ⟨Rank.jack, Suit.hearts⟩] =
      some [⟨Rank.three, Suit.spades⟩, ⟨Rank.four, Suit.diamonds⟩] := by decide
  have hrun : run = [⟨Rank.three, Suit.spades⟩, ⟨Rank.four, Suit.diamonds⟩] :=
    Option.some_inj.mp (h1.symm.trans hconc)
  subst hrun
  rw [h2]
  decide

/-- Claim C7 counterexample: with ranks {2,3,4,5,6,8,10} the window
4-5-6-8 has exactly one gap of size 2 (condition (b) of the claim), yet
no straight draw is reported because the longest run spans 5 cards. -/
theorem c7_counterexample :
    has_straight_draw [⟨Rank.two, Suit.spades⟩, ⟨Rank.three, Suit.diamonds⟩,
      ⟨Rank.four, Suit.spades⟩, ⟨Rank.five, Suit.diamonds⟩, ⟨Rank.six, Suit.spades⟩,
      ⟨Rank.eight, Suit.diamonds⟩, ⟨Rank.ten, Suit.hearts⟩] = some false ∧
    straightDrawWindowScan [⟨Rank.two, Suit.spades⟩, ⟨Rank.three, Suit.diamonds⟩,
      ⟨Rank.four, Suit.spades⟩, ⟨Rank.five, Suit.diamonds⟩, ⟨Rank.six, Suit.spades⟩,
      ⟨Rank.eight, Suit.diamonds⟩, ⟨Rank.ten, Suit.hearts⟩] = true ∧
    (find_longest_straight [⟨Rank.two, Suit.spades⟩, ⟨Rank.three, Suit.diamonds⟩,
      ⟨Rank.four, Suit.spades⟩, ⟨Rank.five, Suit.diamonds⟩, ⟨Rank.six, Suit.spades⟩,
      ⟨Rank.eight, Suit.diamonds⟩, ⟨Rank.ten, Suit.hearts⟩]).map List.length = some 5 := by
  refine ⟨?_, ?_, ?_⟩ <;> decide

theorem rank_for_symbol_isSome (r : String) :
    (Rank.for_symbol r).isSome = true ↔
      r ∈ ["2", "3", "4", "5", "6", "7", "8", "9", "10", "J", "Q", "K", "A"] := by
  unfold Rank.for_symbol
  rw [List.find?_isSome]
  constructor
  · rintro ⟨x, hx, hbeq⟩
    rw [beq_iff_eq] at hbeq
    subst hbeq
    fin_cases hx <;> simp [Rank.symbol]
  · intro hr
    simp only [List.mem_cons, List.not_mem_nil, or_false] at hr
    rcases hr with rfl | rfl | rfl | rfl | rfl | rfl | rfl | rfl | rfl | rfl | rfl | rfl | rfl
    · exact ⟨Rank.two, by simp, by simp [Rank.symbol]⟩
    · exact ⟨Rank.three, by simp, by simp [Rank.symbol]⟩
    · exact ⟨Rank.four, by simp, by simp [Rank.symbol]⟩
    · exact ⟨Rank.five, by simp, by simp [Rank.symbol]⟩
    · exact ⟨Rank.six, by simp, by simp [Rank.symbol]⟩
    · exact ⟨Rank.seven, by simp, by simp [Rank.symbol]⟩
    · exact ⟨Rank.eight, by simp, by simp [Rank.symbol]⟩
    · exact ⟨Rank.nine, by simp, by simp [Rank.symbol]⟩
    · exact ⟨Rank.ten, by simp, by simp [Rank.symbol]⟩
    · exact ⟨Rank.jack, by simp, by simp [Rank.symbol]⟩
    · exact ⟨Rank.queen, by simp, by simp [Rank.symbol]⟩
    · exact ⟨Rank.king, by simp, by simp [Rank.symbol]⟩
    · exact ⟨Rank.ace, by simp, by simp [Rank.symbol]⟩

theorem suit_for_letter_isSome (s : String) :
    (Suit.for_letter s).isSome = true ↔ s.toUpper ∈ ["C", "D", "H", "S"] := by
  unfold Suit.for_letter
  split_ifs with h1 h2 h3 h4 <;> simp_all

theorem suit_for_symbol_isSome (s : String) :
    (Suit.for_symbol s).isSome = true ↔ s ∈ ["♠︎", "♥︎", "♦︎", "♣"] := by
  unfold Suit.for_symbol
  rw [List.find?_isSome]
  constructor
  · rintro ⟨x, hx, hbeq⟩
    rw [beq_iff_eq] at hbeq
    subst hbeq
    fin_cases hx <;> simp [Suit.symbol]
  · intro hr
    simp only [List.mem_cons, List.not_mem_nil, or_false] at hr
    rcases hr with rfl | rfl | rfl | rfl
    · exact ⟨Suit.spades, by simp, by simp [Suit.symbol]⟩
    · exact ⟨Suit.hearts, by simp, by simp [Suit.symbol]⟩
    · exact ⟨Suit.diamonds, by simp, by simp [Suit.symbol]⟩
    · exact ⟨Suit.clubs, by simp, by simp [Suit.symbol]⟩

/-- Claim C8 (amended): card construction from text succeeds exactly for
the rank tokens 2..10, J, Q, K, A (the token T is NOT accepted: the ten
uses symbol "10") together with a suit letter C/D/H/S in either case or a
suit display glyph; it fails on every other rank or suit token. -/
theorem c8_get_card_tokens (r s : String) :
    (get_card r s).isSome = true ↔
      (r ∈ ["2", "3", "4", "5", "6", "7", "8", "9", "10", "J", "Q", "K", "A"] ∧
        (s.toUpper ∈ ["C", "D", "H", "S"] ∨ s ∈ ["♠︎", "♥︎", "♦︎", "♣"])) := by
  unfold get_card
  cases hr : Rank.for_symbol r with
  | none =>
    constructor
    · intro h; simp at h
    · rintro ⟨hmem, -⟩
      have h := (rank_for_symbol_isSome r).mpr hmem
      rw [hr] at h
      simp at h
  | some rk =>
    have hrm : r ∈ ["2", "3", "4", "5", "6", "7", "8", "9", "10", "J", "Q", "K", "A"] :=
      (rank_for_symbol_isSome r).mp (by rw [hr]; rfl)
    cases hl : Suit.for_letter s with
    | some st =>
      have hsm := (suit_for_letter_isSome s).mp (by rw [hl]; rfl)
      simp [hrm, hsm]
    | none =>
      cases hy : Suit.for_symbol s with
      | some st =>
        have hsm := (suit_for_symbol_isSome s).mp (by rw [hy]; rfl)
        simp [hrm, hsm]
      | none =>
        have hL : ¬ s.toUpper ∈ ["C", "D", "H", "S"] := by
          intro hm
          have h := (suit_for_letter_isSome s).mpr hm
          rw [hl] at h
          simp at h
        have hG : ¬ s ∈ ["♠︎", "♥︎", "♦︎", "♣"] := by
          intro hm
          have h := (suit_for_symbol_isSome s).mpr hm
          rw [hy] at h
          simp at h
        simp [hL, hG]

/-- Claim C8 counterexample: the rank token "T" is rejected even with a
valid suit token, contrary to the claim that A or T is accepted. -/
theorem c8_counterexample : get_card "T" "S" = none := by rfl

/-- Claim C5: every mixed-suit card set with ranks {A,2,3,4,5} rates as a
straight (not high card); the participating cards are ace-low, so their
rank tuple is (A,2,3,4,5) and the top (last) participating rank is five,
not ace. -/
theorem c5_wheel_is_straight (s0 s1 s2 s3 s4 : Suit)
    (h : ¬(s0 = s1 ∧ s1 = s2 ∧ s2 = s3 ∧ s3 = s4)) :
    (ratingOf [⟨Rank.ace, s0⟩, ⟨Rank.two, s1⟩, ⟨Rank.three, s2⟩, ⟨Rank.four, s3⟩,
      ⟨Rank.five, s4⟩]).hand_type = HandType.straight ∧
    ranksOf (ratingOf [⟨Rank.ace, s0⟩, ⟨Rank.two, s1⟩, ⟨Rank.three, s2⟩, ⟨Rank.four, s3⟩,
      ⟨Rank.five, s4⟩]) = [Rank.ace, Rank.two, Rank.three, Rank.four, Rank.five] ∧
    (ranksOf (ratingOf [⟨Rank.ace, s0⟩, ⟨Rank.two, s1⟩, ⟨Rank.three, s2⟩, ⟨Rank.four, s3⟩,
      ⟨Rank.five, s4⟩])).getLast? = some Rank.five := by
  have master : ∀ t0 t1 t2 t3 t4 : Suit, ¬(t0 = t1 ∧ t1 = t2 ∧ t2 = t3 ∧ t3 = t4) →
      (ratingOf [⟨Rank.ace, t0⟩, ⟨Rank.two, t1⟩, ⟨Rank.three, t2⟩, ⟨Rank.four, t3⟩,
        ⟨Rank.five, t4⟩]).hand_type = HandType.straight ∧
      ranksOf (ratingOf [⟨Rank.ace, t0⟩, ⟨Rank.two, t1⟩, ⟨Rank.three, t2⟩, ⟨Rank.four, t3⟩,
        ⟨Rank.five, t4⟩]) = [Rank.ace, Rank.two, Rank.three, Rank.four, Rank.five] := by
    decide
  obtain ⟨h1, h2⟩ := master s0 s1 s2 s3 s4 h
  exact ⟨h1, h2, by rw [h2]; rfl⟩

/-- Witness for claim C5 at a concrete mixed-suit assignment. -/
theorem c5_witness :
    ¬(Suit.spades = Suit.hearts ∧ Suit.hearts = Suit.clubs ∧ Suit.clubs = Suit.clubs ∧
        Suit.clubs = Suit.clubs) ∧
    (ratingOf [⟨Rank.ace, Suit.spades⟩, ⟨Rank.two, Suit.hearts⟩, ⟨Rank.three, Suit.clubs⟩,
      ⟨Rank.four, Suit.clubs⟩, ⟨Rank.five, Suit.clubs⟩]).hand_type = HandType.straight :=
  ⟨by decide,
   (c5_wheel_is_straight Suit.spades Suit.hearts Suit.clubs Suit.clubs Suit.clubs (by decide)).1⟩

/-- Claim C6: a single-suited {10,J,Q,K,A} rates royal flush and a
single-suited {9,10,J,Q,K} rates straight flush; in general, whenever a
straight flush is detected the made hand is the top five cards of the
longest run of the biggest same-suit group, and the royal case holds
exactly when the bottom card of those top five is a ten. -/
theorem c6_royal_and_straight_flush :
    (∀ s : Suit,
      (ratingOf [⟨Rank.ten, s⟩, ⟨Rank.jack, s⟩, ⟨Rank.queen, s⟩, ⟨Rank.king, s⟩,
        ⟨Rank.ace, s⟩]).hand_type = HandType.royal_flush ∧
      (ratingOf [⟨Rank.nine, s⟩, ⟨Rank.ten, s⟩, ⟨Rank.jack, s⟩, ⟨Rank.queen, s⟩,
        ⟨Rank.king, s⟩]).hand_type = HandType.straight_flush) ∧
    (∀ cards : List Card, has_straight_flush cards = true →
      ∃ f run, find_biggest_flush cards = some f ∧ find_longest_straight f = some run ∧
        (ratingOf cards).participating = lastN HAND_SIZE run ∧
        ((ratingOf cards).hand_type = HandType.royal_flush ↔
          (ratingOf cards).participating.head?.map Card.rank = some Rank.ten)) := by
  constructor
  · decide
  · intro cards hsf
    obtain ⟨hf, f, hfbf, hs⟩ := has_straight_flush_elim hsf
    obtain ⟨-, run, hrun, hlen⟩ := has_straight_elim hs
    have hne : lastN HAND_SIZE run ≠ [] := by
      have hl := lastN_length_of_le (l := run) (n := HAND_SIZE) hlen
      intro hnil; rw [hnil] at hl; simp [HAND_SIZE] at hl
    cases hh : (lastN HAND_SIZE run).head? with
    | none => have := head?_isSome_of_ne_nil hne; rw [hh] at this; simp at this
    | some c0 =>
      refine ⟨f, run, hfbf, hrun, ?_, ?_⟩
      · unfold ratingOf rate_hand
        rw [if_pos hsf]
        simp only [hfbf, hrun, hh]
        by_cases hc : c0.rank = Rank.ten <;> simp [hc, mkRating]
      · unfold ratingOf rate_hand
        rw [if_pos hsf]
        simp only [hfbf, hrun, hh]
        by_cases hc : c0.rank = Rank.ten
        · rw [if_pos hc]
          simp [mkRating, hh, hc]
        · rw [if_neg hc]
          simp [mkRating, hh, hc]

/-- Witness for claim C6 at a concrete straight-flush input. -/
theorem c6_witness :
    (ratingOf [⟨Rank.ten, Suit.spades⟩, ⟨Rank.jack, Suit.spades⟩, ⟨Rank.queen, Suit.spades⟩,
      ⟨Rank.king, Suit.spades⟩, ⟨Rank.ace, Suit.spades⟩]).hand_type = HandType.royal_flush ↔
    (ratingOf [⟨Rank.ten, Suit.spades⟩, ⟨Rank.jack, Suit.spades⟩, ⟨Rank.queen, Suit.spades⟩,
      ⟨Rank.king, Suit.spades⟩, ⟨Rank.ace, Suit.spades⟩]).participating.head?.map Card.rank =
        some Rank.ten := by
  obtain ⟨f, run, -, -, -, hiff⟩ := c6_royal_and_straight_flush.2
    [⟨Rank.ten, Suit.spades⟩, ⟨Rank.jack, Suit.spades⟩, ⟨Rank.queen, Suit.spades⟩,
      ⟨Rank.king, Suit.spades⟩, ⟨Rank.ace, Suit.spades⟩] (by decide)
  exact hiff

theorem rank_ordering_inj : ∀ a b : Rank, a.ordering = b.ordering → a = b := by decide

theorem hand_type_ordering_inj : ∀ a b : HandType, a.ordering = b.ordering → a = b := by decide

theorem cmpRankList_eq_iff : ∀ x y : List Rank, cmpRankList x y = Ordering.eq ↔ x = y := by
  intro x
  induction x with
  | nil => intro y; cases y <;> simp [cmpRankList]
  | cons a as ih =>
    intro y
    cases y with
    | nil => simp [cmpRankList]
    | cons b bs =>
      unfold cmpRankList
      cases hc : compare a.ordering b.ordering with
      | eq =>
        have hab : a = b := rank_ordering_inj a b (Nat.compare_eq_eq.mp hc)
        subst hab
        simp [ih bs]
      | lt =>
        have hne : a ≠ b := by
          intro he
          subst he
          rw [Nat.compare_eq_eq.mpr rfl] at hc
          cases hc
        simp [hne]
      | gt =>
        have hne : a ≠ b := by
          intro he
          subst he
          rw [Nat.compare_eq_eq.mpr rfl] at hc
          cases hc
        simp [hne]

theorem cmpRankList_swap : ∀ x y : List Rank, cmpRankList y x = (cmpRankList x y).swap := by
  intro x
  induction x with
  | nil => intro y; cases y <;> simp [cmpRankList, Ordering.swap]
  | cons a as ih =>
    intro y
    cases y with
    | nil => simp [cmpRankList, Ordering.swap]
    | cons b bs =>
      unfold cmpRankList
      have hswap : compare b.ordering a.ordering = (compare a.ordering b.ordering).swap :=
        (Nat.compare_swap a.ordering b.ordering).symm
      cases hc : compare a.ordering b.ordering with
      | eq =>
        rw [hc] at hswap
        simp only [hswap, Ordering.swap]
        exact ih bs
      | lt =>
        rw [hc] at hswap
        simp only [hswap, Ordering.swap]
      | gt =>
        rw [hc] at hswap
        simp only [hswap, Ordering.swap]

theorem gdkr_swap (a b : HandRating) (hn : numKickers a = numKickers b) :
    get_distinct_kicker_ranks b a =
      ((get_distinct_kicker_ranks a b).2, (get_distinct_kicker_ranks a b).1) := by
  unfold get_distinct_kicker_ranks
  rw [← hn]

theorem rating_compare_trichotomy (A B : HandRating) :
    (ratingEq A B = ratingEq B A) ∧
    ¬(ratingEq A B = true ∧ ratingGt A B = true) ∧
    ¬(ratingGt A B = true ∧ ratingGt B A = true) ∧
    (ratingEq A B = true ∨ ratingGt A B = true ∨ ratingGt B A = true) ∧
    (ratingLt A B = ratingGt B A) := by
  by_cases hT : A.hand_type = B.hand_type
  · have hordeq : A.hand_type.ordering = B.hand_type.ordering := by rw [hT]
    have hA1 : ¬ A.hand_type.ordering > B.hand_type.ordering := by omega
    have hA2 : ¬ A.hand_type.ordering < B.hand_type.ordering := by omega
    have hB1 : ¬ B.hand_type.ordering > A.hand_type.ordering := by omega
    have hB2 : ¬ B.hand_type.ordering < A.hand_type.ordering := by omega
    have hTn : ¬ A.hand_type ≠ B.hand_type := fun hne => hne hT
    have hTn2 : ¬ B.hand_type ≠ A.hand_type := fun hne => hne hT.symm
    by_cases hR : ranksOf A = ranksOf B
    · have hcEq : cmpRankList (ranksOf A) (ranksOf B) = Ordering.eq :=
        (cmpRankList_eq_iff _ _).mpr hR
      have hcEq2 : cmpRankList (ranksOf B) (ranksOf A) = Ordering.eq :=
        (cmpRankList_eq_iff _ _).mpr hR.symm
      have hRn : ¬ ranksOf A ≠ ranksOf B := fun hne => hne hR
      have hRn2 : ¬ ranksOf B ≠ ranksOf A := fun hne => hne hR.symm
      have hlen : A.participating.length = B.participating.length := by
        have h := congrArg List.length hR
        simpa [ranksOf] using h
      have hn : numKickers A = numKickers B := by unfold numKickers; rw [hlen]
      by_cases hk : numKickers A = 0
      · have hkB : numKickers B = 0 := by rw [← hn]; exact hk
        have heAB : ratingEq A B = true := by
          unfold ratingEq
          rw [if_neg hTn, if_neg hRn, if_pos (by rw [hk]; decide)]
        have heBA : ratingEq B A = true := by
          unfold ratingEq
          rw [if_neg hTn2, if_neg hRn2, if_pos (by rw [hkB]; decide)]
        have hgAB : ratingGt A B = false := by
          unfold ratingGt
          rw [if_neg hA1, if_neg hA2, if_neg (by rw [hcEq]; decide),
            if_neg (by rw [hcEq]; decide), if_pos (by rw [hk]; decide)]
        have hgBA : ratingGt B A = false := by
          unfold ratingGt
          rw [if_neg hB1, if_neg hB2, if_neg (by rw [hcEq2]; decide),
            if_neg (by rw [hcEq2]; decide), if_pos (by rw [hkB]; decide)]
        refine ⟨by rw [heAB, heBA], ?_, ?_, Or.inl heAB, ?_⟩
        · intro h; rw [hgAB] at h; exact absurd h.2 (by decide)
        · intro h; rw [hgAB] at h; exact absurd h.1 (by decide)
        · unfold ratingLt
          rw [heAB, hgAB, hgBA]
          rfl
      · have hkB : numKickers B ≠ 0 := by rw [← hn]; exact hk
        rcases hmt : get_distinct_kicker_ranks A B with ⟨m, t⟩
        have hswap : get_distinct_kicker_ranks B A = (t, m) := by
          rw [gdkr_swap A B hn, hmt]
        have hcsw : cmpRankList t m = (cmpRankList m t).swap := cmpRankList_swap m t
        have hkf : ¬ (numKickers A == 0) = true := by
          simp only [beq_iff_eq]
          exact hk
        have hkf2 : ¬ (numKickers B == 0) = true := by
          simp only [beq_iff_eq]
          exact hkB
        have heAB : ratingEq A B = (m == t) := by
          unfold ratingEq
          rw [if_neg hTn, if_neg hRn, if_neg hkf, hmt]
        have heBA : ratingEq B A = (t == m) := by
          unfold ratingEq
          rw [if_neg hTn2, if_neg hRn2, if_neg hkf2, hswap]
        have hgAB : ratingGt A B = (cmpRankList m t == Ordering.gt) := by
          unfold ratingGt
          rw [if_neg hA1, if_neg hA2, if_neg (by rw [hcEq]; decide),
            if_neg (by rw [hcEq]; decide), if_neg hkf, hmt]
        have hgBA : ratingGt B A = (cmpRankList t m == Ordering.gt) := by
          unfold ratingGt
          rw [if_neg hB1, if_neg hB2, if_neg (by rw [hcEq2]; decide),
            if_neg (by rw [hcEq2]; decide), if_neg hkf2, hswap]
        rw [hcsw] at hgBA
        cases hc : cmpRankList m t with
        | eq =>
          have hmteq : m = t := (cmpRankList_eq_iff _ _).mp hc
          rw [hc] at hgAB hgBA
          refine ⟨?_, ?_, ?_, ?_, ?_⟩
          · rw [heAB, heBA, hmteq]
          · intro h; rw [hgAB] at h; exact absurd h.2 (by decide)
          · intro h; rw [hgAB] at h; exact absurd h.1 (by decide)
          · exact Or.inl (by rw [heAB, hmteq]; simp)
          · unfold ratingLt
            rw [heAB, hgAB, hgBA, hmteq]
            have hbt : (t == t) = true := by simp
            rw [hbt]
            decide
        | lt =>
          have hmtne : m ≠ t := fun he => by
            rw [(cmpRankList_eq_iff m t).mpr he] at hc; cases hc
          have hbf : (m == t) = false := by simp [hmtne]
          have hbf2 : (t == m) = false := by simp [Ne.symm hmtne]
          rw [hc] at hgAB hgBA
          refine ⟨?_, ?_, ?_, ?_, ?_⟩
          · rw [heAB, heBA, hbf, hbf2]
          · intro h; rw [hgAB] at h; exact absurd h.2 (by decide)
          · intro h; rw [hgAB] at h; exact absurd h.1 (by decide)
          · exact Or.inr (Or.inr (by rw [hgBA]; decide))
          · unfold ratingLt
            rw [heAB, hgAB, hgBA, hbf]
            decide
        | gt =>
          have hmtne : m ≠ t := fun he => by
            rw [(cmpRankList_eq_iff m t).mpr he] at hc; cases hc
          have hbf : (m == t) = false := by simp [hmtne]
          have hbf2 : (t == m) = false := by simp [Ne.symm hmtne]
          rw [hc] at hgAB hgBA
          refine ⟨?_, ?_, ?_, ?_, ?_⟩
          · rw [heAB, heBA, hbf, hbf2]
          · intro h; rw [heAB, hbf] at h; exact absurd h.1 (by decide)
          · intro h; rw [hgBA] at h; exact absurd h.2 (by decide)
          · exact Or.inr (Or.inl (by rw [hgAB]; decide))
          · unfold ratingLt
            rw [heAB, hgAB, hgBA, hbf]
            decide
    · have hRn : ranksOf A ≠ ranksOf B := hR
      have hRn2 : ranksOf B ≠ ranksOf A := Ne.symm hR
      have heAB : ratingEq A B = false := by
        unfold ratingEq
        rw [if_neg hTn, if_pos hRn]
      have heBA : ratingEq B A = false := by
        unfold ratingEq
        rw [if_neg hTn2, if_pos hRn2]
      have hcsw : cmpRankList (ranksOf B) (ranksOf A) =
          (cmpRankList (ranksOf A) (ranksOf B)).swap := cmpRankList_swap _ _
      cases hc : cmpRankList (ranksOf A) (ranksOf B) with
      | eq => exact absurd ((cmpRankList_eq_iff _ _).mp hc) hR
      | lt =>
        rw [hc] at hcsw
        have hgAB : ratingGt A B = false := by
          unfold ratingGt
          rw [if_neg hA1, if_neg hA2, if_neg (by rw [hc]; decide), if_pos (by rw [hc]; decide)]
        have hgBA : ratingGt B A = true := by
          unfold ratingGt
          rw [if_neg hB1, if_neg hB2, if_pos (by rw [hcsw]; decide)]
        refine ⟨by rw [heAB, heBA], ?_, ?_, Or.inr (Or.inr hgBA), ?_⟩
        · intro h; rw [heAB] at h; exact absurd h.1 (by decide)
        · intro h; rw [hgAB] at h; exact absurd h.1 (by decide)
        · unfold ratingLt
          rw [heAB, hgAB, hgBA]
          rfl
      | gt =>
        rw [hc] at hcsw
        have hgAB : ratingGt A B = true := by
          unfold ratingGt
          rw [if_neg hA1, if_neg hA2, if_pos (by rw [hc]; decide)]
        have hgBA : ratingGt B A = false := by
          unfold ratingGt
          rw [if_neg hB1, if_neg hB2, if_neg (by rw [hcsw]; decide),
            if_pos (by rw [hcsw]; decide)]
        refine ⟨by rw [heAB, heBA], ?_, ?_, Or.inr (Or.inl hgAB), ?_⟩
        · intro h; rw [heAB] at h; exact absurd h.1 (by decide)
        · intro h; rw [hgBA] at h; exact absurd h.2 (by decide)
        · unfold ratingLt
          rw [heAB, hgAB, hgBA]
          rfl
  · have hord : A.hand_type.ordering ≠ B.hand_type.ordering := fun he =>
      hT (hand_type_ordering_inj _ _ he)
    have heAB : ratingEq A B = false := by
      unfold ratingEq
      rw [if_pos hT]
    have heBA : ratingEq B A = false := by
      unfold ratingEq
      rw [if_pos (Ne.symm hT)]
    rcases Nat.lt_or_ge A.hand_type.ordering B.hand_type.ordering with hlt | hge
    · have hgAB : ratingGt A B = false := by
        unfold ratingGt
        rw [if_neg (by omega), if_pos hlt]
      have hgBA : ratingGt B A = true := by
        unfold ratingGt
        rw [if_pos hlt]
      refine ⟨by rw [heAB, heBA], ?_, ?_, Or.inr (Or.inr hgBA), ?_⟩
      · intro h; rw [heAB] at h; exact absurd h.1 (by decide)
      · intro h; rw [hgAB] at h; exact absurd h.1 (by decide)
      · unfold ratingLt
        rw [heAB, hgAB, hgBA]
        rfl
    · have hlt2 : B.hand_type.ordering < A.hand_type.ordering := by omega
      have hgAB : ratingGt A B = true := by
        unfold ratingGt
        rw [if_pos hlt2]
      have hgBA : ratingGt B A = false := by
        unfold ratingGt
        rw [if_neg (by omega), if_pos hlt2]
      refine ⟨by rw [heAB, heBA], ?_, ?_, Or.inr (Or.inl hgAB), ?_⟩
      · intro h; rw [heAB] at h; exact absurd h.1 (by decide)
      · intro h; rw [hgBA] at h; exact absurd h.2 (by decide)
      · unfold ratingLt
        rw [heAB, hgAB, hgBA]
        rfl

/-- Claim C1 (amended): for any two ratings built by the evaluator the
comparison is trichotomous (exactly one of equal, greater, less holds,
with less the total_ordering derivation) and antisymmetric; equality is
symmetric.  Transitivity, however, FAILS (see the counterexample), so the
comparison is not a strict total order over pools of ratings. -/
theorem c1_trichotomy_and_antisymmetry (lA lB : List Card) :
    (ratingEq (ratingOf lA) (ratingOf lB) = ratingEq (ratingOf lB) (ratingOf lA)) ∧
    ¬(ratingEq (ratingOf lA) (ratingOf lB) = true ∧ ratingGt (ratingOf lA) (ratingOf lB) = true) ∧
    ¬(ratingGt (ratingOf lA) (ratingOf lB) = true ∧ ratingGt (ratingOf lB) (ratingOf lA) = true) ∧
    (ratingEq (ratingOf lA) (ratingOf lB) = true ∨ ratingGt (ratingOf lA) (ratingOf lB) = true ∨
      ratingGt (ratingOf lB) (ratingOf lA) = true) ∧
    (ratingLt (ratingOf lA) (ratingOf lB) = ratingGt (ratingOf lB) (ratingOf lA)) :=
  rating_compare_trichotomy (ratingOf lA) (ratingOf lB)

/-- Claim C1 counterexample: three valid 7-card pair-of-twos hands where
A == B and B == C but A > C, so the comparison is not transitive and
therefore not a strict total order.  (A and C share the kickers K,Q,J of
spades; B is card-disjoint from both; the symmetric-difference truncation
hides A's 9,8 against B but not against C.) -/
theorem c1_counterexample :
    ratingEq
      (ratingOf [⟨Rank.two, Suit.spades⟩, ⟨Rank.two, Suit.diamonds⟩, ⟨Rank.king, Suit.spades⟩,
        ⟨Rank.queen, Suit.spades⟩, ⟨Rank.jack, Suit.spades⟩, ⟨Rank.nine, Suit.hearts⟩,
        ⟨Rank.eight, Suit.diamonds⟩])
      (ratingOf [⟨Rank.two, Suit.hearts⟩, ⟨Rank.two, Suit.clubs⟩, ⟨Rank.king, Suit.hearts⟩,
        ⟨Rank.queen, Suit.clubs⟩, ⟨Rank.jack, Suit.hearts⟩, ⟨Rank.five, Suit.diamonds⟩,
        ⟨Rank.four, Suit.diamonds⟩]) = true ∧
    ratingEq
      (ratingOf [⟨Rank.two, Suit.hearts⟩, ⟨Rank.two, Suit.clubs⟩, ⟨Rank.king, Suit.hearts⟩,
        ⟨Rank.queen, Suit.clubs⟩, ⟨Rank.jack, Suit.hearts⟩, ⟨Rank.five, Suit.diamonds⟩,
        ⟨Rank.four, Suit.diamonds⟩])
      (ratingOf [⟨Rank.two, Suit.spades⟩, ⟨Rank.two, Suit.diamonds⟩, ⟨Rank.king, Suit.spades⟩,
        ⟨Rank.queen, Suit.spades⟩, ⟨Rank.jack, Suit.spades⟩, ⟨Rank.seven, Suit.clubs⟩,
        ⟨Rank.three, Suit.clubs⟩]) = true ∧
    ratingGt
      (ratingOf [⟨Rank.two, Suit.spades⟩, ⟨Rank.two, Suit.diamonds⟩, ⟨Rank.king, Suit.spades⟩,
        ⟨Rank.queen, Suit.spades⟩, ⟨Rank.jack, Suit.spades⟩, ⟨Rank.nine, Suit.hearts⟩,
        ⟨Rank.eight, Suit.diamonds⟩])
      (ratingOf [⟨Rank.two, Suit.spades⟩, ⟨Rank.two, Suit.diamonds⟩, ⟨Rank.king, Suit.spades⟩,
        ⟨Rank.queen, Suit.spades⟩, ⟨Rank.jack, Suit.spades⟩, ⟨Rank.seven, Suit.clubs⟩,
        ⟨Rank.three, Suit.clubs⟩]) = true := by
  refine ⟨?_, ?_, ?_⟩ <;> decide

theorem sortDescBy_perm (key : α → Nat) (l : List α) : (sortDescBy key l).Perm l :=
  List.perm_insertionSort _ l

theorem sortAscBy_perm (key : α → Nat) (l : List α) : (sortAscBy key l).Perm l :=
  List.perm_insertionSort _ l

theorem sortDescBy_sorted (key : α → Nat) (l : List α) :
    (sortDescBy key l).Sorted (fun a b => key b ≤ key a) := by
  haveI : IsTotal α (fun a b => key b ≤ key a) := ⟨fun a b => (Nat.le_total (key a) (key b)).symm⟩
  haveI : IsTrans α (fun a b => key b ≤ key a) := ⟨fun _ _ _ hab hbc => Nat.le_trans hbc hab⟩
  exact List.sorted_insertionSort _ l

theorem sortAscBy_sorted (key : α → Nat) (l : List α) :
    (sortAscBy key l).Sorted (fun a b => key a ≤ key b) := by
  haveI : IsTotal α (fun a b => key a ≤ key b) := ⟨fun a b => Nat.le_total (key a) (key b)⟩
  haveI : IsTrans α (fun a b => key a ≤ key b) := ⟨fun _ _ _ hab hbc => Nat.le_trans hab hbc⟩
  exact List.sorted_insertionSort _ l

theorem rank_desc_antisymm :
    IsAntisymm Rank (fun a b => Rank.ordering b ≤ Rank.ordering a) :=
  ⟨fun a b hab hba => rank_ordering_inj a b (Nat.le_antisymm hba hab)⟩

theorem rank_asc_antisymm :
    IsAntisymm Rank (fun a b => Rank.ordering a ≤ Rank.ordering b) :=
  ⟨fun a b hab hba => rank_ordering_inj a b (Nat.le_antisymm hab hba)⟩

theorem sortDescRank_canonical {r1 r2 : List Rank} (h : r1.Perm r2) :
    sortDescBy Rank.ordering r1 = sortDescBy Rank.ordering r2 := by
  haveI := rank_desc_antisymm
  exact List.eq_of_perm_of_sorted
    ((sortDescBy_perm _ r1).trans (h.trans (sortDescBy_perm _ r2).symm))
    (sortDescBy_sorted _ r1) (sortDescBy_sorted _ r2)

theorem sortAscRank_canonical {r1 r2 : List Rank} (h : r1.Perm r2) :
    sortAscBy Rank.ordering r1 = sortAscBy Rank.ordering r2 := by
  haveI := rank_asc_antisymm
  exact List.eq_of_perm_of_sorted
    ((sortAscBy_perm _ r1).trans (h.trans (sortAscBy_perm _ r2).symm))
    (sortAscBy_sorted _ r1) (sortAscBy_sorted _ r2)

theorem suit_ordering_bounds : ∀ s : Suit, 1 ≤ s.ordering ∧ s.ordering ≤ 4 := by decide

theorem fullKey_le_rank_le {a b : Card} (h : fullKey b ≤ fullKey a) :
    b.rank.ordering ≤ a.rank.ordering := by
  unfold fullKey at h
  have ha := suit_ordering_bounds a.suit
  have hb := suit_ordering_bounds b.suit
  omega

theorem map_rank_sortDescBy_rankKey (l : List Card) :
    (sortDescBy rankKey l).map Card.rank = sortDescBy Rank.ordering (l.map Card.rank) := by
  haveI := rank_desc_antisymm
  have hperm : ((sortDescBy rankKey l).map Card.rank).Perm
      (sortDescBy Rank.ordering (l.map Card.rank)) :=
    ((sortDescBy_perm rankKey l).map Card.rank).trans (sortDescBy_perm _ _).symm
  have hs1 : ((sortDescBy rankKey l).map Card.rank).Sorted
      (fun a b => Rank.ordering b ≤ Rank.ordering a) :=
    List.Pairwise.map Card.rank (fun _ _ hab => hab) (sortDescBy_sorted rankKey l)
  exact List.eq_of_perm_of_sorted hperm hs1 (sortDescBy_sorted _ _)

theorem map_rank_sortAscBy_rankKey (l : List Card) :
    (sortAscBy rankKey l).map Card.rank = sortAscBy Rank.ordering (l.map Card.rank) := by
  haveI := rank_asc_antisymm
  have hperm : ((sortAscBy rankKey l).map Card.rank).Perm
      (sortAscBy Rank.ordering (l.map Card.rank)) :=
    ((sortAscBy_perm rankKey l).map Card.rank).trans (sortAscBy_perm _ _).symm
  have hs1 : ((sortAscBy rankKey l).map Card.rank).Sorted
      (fun a b => Rank.ordering a ≤ Rank.ordering b) :=
    List.Pairwise.map Card.rank (fun _ _ hab => hab) (sortAscBy_sorted rankKey l)
  exact List.eq_of_perm_of_sorted hperm hs1 (sortAscBy_sorted _ _)

theorem map_rank_sortDescBy_fullKey (l : List Card) :
    (sortDescBy fullKey l).map Card.rank = sortDescBy Rank.ordering (l.map Card.rank) := by
  haveI := rank_desc_antisymm
  have hperm : ((sortDescBy fullKey l).map Card.rank).Perm
      (sortDescBy Rank.ordering (l.map Card.rank)) :=
    ((sortDescBy_perm fullKey l).map Card.rank).trans (sortDescBy_perm _ _).symm
  have hs1 : ((sortDescBy fullKey l).map Card.rank).Sorted
      (fun a b => Rank.ordering b ≤ Rank.ordering a) :=
    List.Pairwise.map Card.rank (fun _ _ hab => fullKey_le_rank_le hab)
      (sortDescBy_sorted fullKey l)
  exact List.eq_of_perm_of_sorted hperm hs1 (sortDescBy_sorted _ _)

theorem take_map_sortDescFull (x : List Card) (n : Nat) :
    ((sortDescBy fullKey x).take n).map Card.rank =
      (sortDescBy Rank.ordering (x.map Card.rank)).take n := by
  rw [← map_rank_sortDescBy_fullKey]
  exact List.map_take Card.rank (sortDescBy fullKey x) n

/-- Claim C2 (amended): when two ratings agree on hand type and on the
participating-card rank tuple and kicker slots remain open, the
comparison is resolved exactly by: take the symmetric difference of the
two sides' kicker CARD sets (only cards identical in rank and suit are
dropped — a rank carried by different suits on the two sides is kept),
project to ranks, sort descending, truncate to 5 minus the participating
count, and compare lexicographically; equality at every level makes the
ratings equal. -/
theorem c2_kicker_resolution (a b : HandRating)
    (hT : a.hand_type = b.hand_type) (hR : ranksOf a = ranksOf b) (hk : numKickers a ≠ 0) :
    (ratingEq a b = true ↔ cardSetKickerCmp a b = Ordering.eq) ∧
    (ratingGt a b = true ↔ cardSetKickerCmp a b = Ordering.gt) ∧
    (ratingLt a b = true ↔ cardSetKickerCmp a b = Ordering.lt) := by
  have hordeq : a.hand_type.ordering = b.hand_type.ordering := by rw [hT]
  have hA1 : ¬ a.hand_type.ordering > b.hand_type.ordering := by omega
  have hA2 : ¬ a.hand_type.ordering < b.hand_type.ordering := by omega
  have hTn : ¬ a.hand_type ≠ b.hand_type := fun hne => hne hT
  have hRn : ¬ ranksOf a ≠ ranksOf b := fun hne => hne hR
  have hcEq : cmpRankList (ranksOf a) (ranksOf b) = Ordering.eq :=
    (cmpRankList_eq_iff _ _).mpr hR
  have hkf : ¬ (numKickers a == 0) = true := by
    simp only [beq_iff_eq]
    exact hk
  have hg1 : (get_distinct_kicker_ranks a b).1 =
      ((sortDescBy fullKey ((a.kickers.dedup).filter
        (fun c => !(b.kickers.contains c)))).take (numKickers a)).map Card.rank := rfl
  have hg2 : (get_distinct_kicker_ranks a b).2 =
      ((sortDescBy fullKey ((b.kickers.dedup).filter
        (fun c => !(a.kickers.contains c)))).take (numKickers a)).map Card.rank := rfl
  have hCmp : cardSetKickerCmp a b =
      cmpRankList (get_distinct_kicker_ranks a b).1 (get_distinct_kicker_ranks a b).2 := by
    rw [hg1, hg2, take_map_sortDescFull, take_map_sortDescFull]
    rfl
  have heAB : ratingEq a b =
      ((get_distinct_kicker_ranks a b).1 == (get_distinct_kicker_ranks a b).2) := by
    unfold ratingEq
    rw [if_neg hTn, if_neg hRn, if_neg hkf]
  have hgAB : ratingGt a b =
      (cmpRankList (get_distinct_kicker_ranks a b).1 (get_distinct_kicker_ranks a b).2 ==
        Ordering.gt) := by
    unfold ratingGt
    rw [if_neg hA1, if_neg hA2, if_neg (by rw [hcEq]; decide), if_neg (by rw [hcEq]; decide),
      if_neg hkf]
  have hogt : ∀ o : Ordering, (o == Ordering.gt) = true ↔ o = Ordering.gt := by
    intro o
    cases o <;> decide
  refine ⟨?_, ?_, ?_⟩
  · rw [heAB, hCmp, beq_iff_eq, cmpRankList_eq_iff]
  · rw [hgAB, hCmp]
    exact hogt _
  · unfold ratingLt
    rw [heAB, hgAB, hCmp]
    cases hc : cmpRankList (get_distinct_kicker_ranks a b).1 (get_distinct_kicker_ranks a b).2 with
    | eq =>
      have he : (get_distinct_kicker_ranks a b).1 = (get_distinct_kicker_ranks a b).2 :=
        (cmpRankList_eq_iff _ _).mp hc
      simp [he]
    | lt =>
      have hne : (get_distinct_kicker_ranks a b).1 ≠ (get_distinct_kicker_ranks a b).2 :=
        fun he => by rw [(cmpRankList_eq_iff _ _).mpr he] at hc; cases hc
      simp [hne] <;> decide
    | gt =>
      have hne : (get_distinct_kicker_ranks a b).1 ≠ (get_distinct_kicker_ranks a b).2 :=
        fun he => by rw [(cmpRankList_eq_iff _ _).mpr he] at hc; cases hc
      simp [hne] <;> decide

/-- Witness for claim C2: two real pair-of-twos hands with equal ranks
resolved by the card-set kicker formula. -/
theorem c2_witness :
    (ratingEq
      (ratingOf [⟨Rank.two, Suit.spades⟩, ⟨Rank.two, Suit.diamonds⟩, ⟨Rank.king, Suit.spades⟩,
        ⟨Rank.queen, Suit.diamonds⟩, ⟨Rank.jack, Suit.spades⟩, ⟨Rank.nine, Suit.diamonds⟩,
        ⟨Rank.eight, Suit.spades⟩])
      (ratingOf [⟨Rank.two, Suit.clubs⟩, ⟨Rank.two, Suit.hearts⟩, ⟨Rank.king, Suit.hearts⟩,
        ⟨Rank.queen, Suit.clubs⟩, ⟨Rank.jack, Suit.hearts⟩, ⟨Rank.nine, Suit.clubs⟩,
        ⟨Rank.three, Suit.hearts⟩]) = true) ↔
    cardSetKickerCmp
      (ratingOf [⟨Rank.two, Suit.spades⟩, ⟨Rank.two, Suit.diamonds⟩, ⟨Rank.king, Suit.spades⟩,
        ⟨Rank.queen, Suit.diamonds⟩, ⟨Rank.jack, Suit.spades⟩, ⟨Rank.nine, Suit.diamonds⟩,
        ⟨Rank.eight, Suit.spades⟩])
      (ratingOf [⟨Rank.two, Suit.clubs⟩, ⟨Rank.two, Suit.hearts⟩, ⟨Rank.king, Suit.hearts⟩,
        ⟨Rank.queen, Suit.clubs⟩, ⟨Rank.jack, Suit.hearts⟩, ⟨Rank.nine, Suit.clubs⟩,
        ⟨Rank.three, Suit.hearts⟩]) = Ordering.eq :=
  (c2_kicker_resolution _ _ (by decide) (by decide) (by decide)).1

/-- Claim C2 counterexample: for two pair-of-twos hands whose kicker
ranks are K,Q,J,9,8 versus K,Q,J,9,3 carried by disjoint cards, the code
declares the ratings equal (card-set difference keeps K,Q,J on both
sides, and truncation to three slots hides the 8 and the 3), while the
claim's rank-set symmetric difference would compare [8] against [3] and
declare the first hand greater. -/
theorem c2_counterexample :
    ratingEq
      (ratingOf [⟨Rank.two, Suit.spades⟩, ⟨Rank.two, Suit.diamonds⟩, ⟨Rank.king, Suit.spades⟩,
        ⟨Rank.queen, Suit.diamonds⟩, ⟨Rank.jack, Suit.spades⟩, ⟨Rank.nine, Suit.diamonds⟩,
        ⟨Rank.eight, Suit.spades⟩])
      (ratingOf [⟨Rank.two, Suit.clubs⟩, ⟨Rank.two, Suit.hearts⟩, ⟨Rank.king, Suit.hearts⟩,
        ⟨Rank.queen, Suit.clubs⟩, ⟨Rank.jack, Suit.hearts⟩, ⟨Rank.nine, Suit.clubs⟩,
        ⟨Rank.three, Suit.hearts⟩]) = true ∧
    rankSetKickerCmp
      (ratingOf [⟨Rank.two, Suit.spades⟩, ⟨Rank.two, Suit.diamonds⟩, ⟨Rank.king, Suit.spades⟩,
        ⟨Rank.queen, Suit.diamonds⟩, ⟨Rank.jack, Suit.spades⟩, ⟨Rank.nine, Suit.diamonds⟩,
        ⟨Rank.eight, Suit.spades⟩])
      (ratingOf [⟨Rank.two, Suit.clubs⟩, ⟨Rank.two, Suit.hearts⟩, ⟨Rank.king, Suit.hearts⟩,
        ⟨Rank.queen, Suit.clubs⟩, ⟨Rank.jack, Suit.hearts⟩, ⟨Rank.nine, Suit.clubs⟩,
        ⟨Rank.three, Suit.hearts⟩]) = Ordering.gt := by
  refine ⟨?_, ?_⟩ <;> decide

/-! ### Rank-projection (mirror) lemmas for claim C9 -/

theorem allSameRank_mirror (w : List Card) :
    allSameRank w = allSameRankR (w.map Card.rank) := by
  cases w with
  | nil => rfl
  | cons c rest =>
    show rest.all (fun d => d.rank == c.rank) = (rest.map Card.rank).all (fun s => s == c.rank)
    induction rest with
    | nil => rfl
    | cons d ds ih => simp [List.all_cons, ih]

theorem find_highest_mirror (l : List Card) (n : Nat) :
    Option.map (List.map Card.rank) (find_highest_n_of_a_kind l n) =
      find_highest_ranks (l.map Card.rank) n := by
  unfold find_highest_n_of_a_kind find_highest_ranks
  rw [List.length_map]
  by_cases hg : n < 2 ∨ l.length < n
  · rw [if_pos hg, if_pos hg]
    rfl
  · rw [if_neg hg, if_neg hg]
    have hmap : (sortDescBy rankKey l).map Card.rank =
        sortDescBy Rank.ordering (l.map Card.rank) := map_rank_sortDescBy_rankKey l
    rw [← hmap, List.length_map]
    have hpred : ∀ i ∈ List.range ((sortDescBy rankKey l).length - n + 1),
        allSameRankR (((((sortDescBy rankKey l).map Card.rank)).drop i).take n) =
          allSameRank (((sortDescBy rankKey l).drop i).take n) := by
      intro i _
      rw [← List.map_drop, ← List.map_take, allSameRank_mirror]
    rw [List.filter_congr hpred]
    cases hh : ((List.range ((sortDescBy rankKey l).length - n + 1)).filter
        (fun i => allSameRank (((sortDescBy rankKey l).drop i).take n))).head? with
    | none => rfl
    | some i =>
      simp only [Option.map_some']
      rw [List.map_take, List.map_drop]

theorem dedupAdjAux_mirror (l : List Card) : ∀ prev : Card,
    (dedupAdjAux prev l).map Card.rank = dedupAdjAuxR prev.rank (l.map Card.rank) := by
  induction l with
  | nil => intro prev; rfl
  | cons d rest ih =>
    intro prev
    unfold dedupAdjAux dedupAdjAuxR
    simp only [List.map_cons]
    by_cases hd : (d.rank == prev.rank) = true
    · rw [if_pos hd, if_pos hd]
      simp [ih d]
    · rw [if_neg hd, if_neg hd]
      simp [ih d]

theorem dedupAdj_mirror (l : List Card) :
    (dedupAdj l).map Card.rank = dedupAdjR (l.map Card.rank) := by
  cases l with
  | nil => rfl
  | cons c rest =>
    unfold dedupAdj dedupAdjR
    simp only [List.map_cons]
    rw [← dedupAdjAux_mirror]

theorem aceInsert_mirror (l : List Card) :
    (aceInsert l).map Card.rank = aceInsertR (l.map Card.rank) := by
  unfold aceInsert aceInsertR
  have hf : (l.filter (fun c => c.rank == Rank.ace)).map Card.rank =
      (l.map Card.rank).filter (fun r => r == Rank.ace) := by
    induction l with
    | nil => rfl
    | cons c rest ih =>
      simp only [List.filter_cons, List.map_cons]
      by_cases hc : (c.rank == Rank.ace) = true
      · rw [if_pos hc, if_pos hc]
        simp [ih]
      · rw [if_neg hc, if_neg hc]
        exact ih
  have hlast : ((l.map Card.rank).filter (fun r => r == Rank.ace)).getLast? =
      ((l.filter (fun c => c.rank == Rank.ace)).getLast?).map Card.rank := by
    rw [← hf, List.getLast?_map]
  cases hg : (l.filter (fun c => c.rank == Rank.ace)).getLast? with
  | none =>
    rw [hg] at hlast
    rw [hlast]
    rfl
  | some a =>
    rw [hg] at hlast
    rw [hlast]
    rfl

theorem getSortedForStraight_mirror (l : List Card) :
    (getSortedForStraight l).map Card.rank = processedRanks (l.map Card.rank) := by
  unfold getSortedForStraight processedRanks
  rw [aceInsert_mirror, dedupAdj_mirror, map_rank_sortAscBy_rankKey]

theorem straightFold_mirror (rest : List Card) : ∀ (prev : Card) (current best : List Card),
    (straightFoldLongest prev rest current best).map Card.rank =
      straightFoldLongestR prev.rank (rest.map Card.rank) (current.map Card.rank)
        (best.map Card.rank) := by
  induction rest with
  | nil =>
    intro prev current best
    simp only [List.map_nil]
    unfold straightFoldLongest straightFoldLongestR
    rw [List.length_map, List.length_map]
    by_cases h : best.length < current.length
    · rw [if_pos h, if_pos h]
    · rw [if_neg h, if_neg h]
  | cons cur rest ih =>
    intro prev current best
    unfold straightFoldLongest straightFoldLongestR
    simp only [List.map_cons]
    by_cases hc : (((cur.rank.ordering : Int) - (prev.rank.ordering : Int) == 1)
        || (cur.rank == Rank.two && prev.rank == Rank.ace)) = true
    · rw [if_pos hc, if_pos hc]
      have h := ih cur (current ++ [cur]) best
      rw [List.map_append] at h
      exact h
    · rw [if_neg hc, if_neg hc]
      rw [List.length_map, List.length_map]
      by_cases hl : best.length < current.length
      · rw [if_pos hl, if_pos hl]
        exact ih cur [cur] current
      · rw [if_neg hl, if_neg hl]
        exact ih cur [cur] best

theorem find_longest_mirror (l : List Card) :
    Option.map (List.map Card.rank) (find_longest_straight l) =
      findLongestRanks (l.map Card.rank) := by
  unfold find_longest_straight findLongestRanks
  have hp : (getSortedForStraight l).map Card.rank = processedRanks (l.map Card.rank) :=
    getSortedForStraight_mirror l
  cases hg : getSortedForStraight l with
  | nil =>
    rw [hg] at hp
    rw [← hp]
    rfl
  | cons c rest =>
    rw [hg] at hp
    rw [← hp]
    simp only [List.map_cons, Option.map_some']
    rw [straightFold_mirror]
    rfl

theorem find_highest_ranks_canonical {r1 r2 : List Rank} (h : r1.Perm r2) (n : Nat) :
    find_highest_ranks r1 n = find_highest_ranks r2 n := by
  unfold find_highest_ranks
  rw [h.length_eq, sortDescRank_canonical h]

theorem processedRanks_canonical {r1 r2 : List Rank} (h : r1.Perm r2) :
    processedRanks r1 = processedRanks r2 := by
  unfold processedRanks
  rw [sortAscRank_canonical h]

theorem findLongestRanks_canonical {r1 r2 : List Rank} (h : r1.Perm r2) :
    findLongestRanks r1 = findLongestRanks r2 := by
  unfold findLongestRanks
  rw [processedRanks_canonical h]

theorem find_highest_elim {l : List Card} {n : Nat} {w : List Card}
    (h : find_highest_n_of_a_kind l n = some w) :
    w.Sublist (sortDescBy rankKey l) ∧ w.length = n := by
  unfold find_highest_n_of_a_kind at h
  by_cases hg : n < 2 ∨ l.length < n
  · rw [if_pos hg] at h; cases h
  · rw [if_neg hg] at h
    push_neg at hg
    obtain ⟨-, hln⟩ := hg
    cases hh : ((List.range ((sortDescBy rankKey l).length - n + 1)).filter
        (fun i => allSameRank (((sortDescBy rankKey l).drop i).take n))).head? with
    | none => rw [hh] at h; cases h
    | some i =>
      rw [hh] at h
      simp only [Option.map_some', Option.some_inj] at h
      subst h
      have hslen : (sortDescBy rankKey l).length = l.length :=
        (sortDescBy_perm rankKey l).length_eq
      have hi : i < (sortDescBy rankKey l).length - n + 1 := by
        have hmem : i ∈ (List.range ((sortDescBy rankKey l).length - n + 1)).filter
            (fun i => allSameRank (((sortDescBy rankKey l).drop i).take n)) :=
          List.mem_of_mem_head? (by rw [hh]; rfl)
        exact List.mem_range.mp (List.mem_of_mem_filter hmem)
      constructor
      · exact (List.take_sublist _ _).trans (List.drop_sublist _ _)
      · rw [List.length_take, List.length_drop]
        omega

theorem diffSet_eq_filter {l w : List Card} (hnl : l.Nodup) :
    diffSet l w = l.filter (fun c => !(w.contains c)) :=
  List.Nodup.dedup (hnl.filter _)

theorem filter_contains_perm {l w : List Card} (hnl : l.Nodup) (hnw : w.Nodup)
    (hsub : ∀ x ∈ w, x ∈ l) :
    (l.filter (fun c => w.contains c)).Perm w := by
  rw [List.perm_ext_iff_of_nodup (hnl.filter _) hnw]
  intro a
  constructor
  · intro ha
    have := List.of_mem_filter ha
    exact List.elem_iff.mp (by simpa using this)
  · intro ha
    exact List.mem_filter.mpr ⟨hsub a ha, by simpa using List.elem_iff.mpr ha⟩

theorem ranks_split {l w : List Card} {n : Nat} (hnl : l.Nodup)
    (h : find_highest_n_of_a_kind l n = some w) :
    (l.map Card.rank).Perm ((w.map Card.rank) ++ ((diffSet l w).map Card.rank)) := by
  obtain ⟨hsub, -⟩ := find_highest_elim h
  have hs : (sortDescBy rankKey l).Nodup := ((sortDescBy_perm rankKey l).nodup_iff).mpr hnl
  have hnw : w.Nodup := hsub.nodup hs
  have hwl : ∀ x ∈ w, x ∈ l :=
    fun x hx => (sortDescBy_perm rankKey l).mem_iff.mp (hsub.subset hx)
  have hsplit : ((l.filter (fun c => w.contains c)) ++
      (l.filter (fun c => !(w.contains c)))).Perm l :=
    List.filter_append_perm _ l
  have hfp : (l.filter (fun c => w.contains c)).Perm w := filter_contains_perm hnl hnw hwl
  rw [diffSet_eq_filter hnl]
  have hperm : l.Perm (w ++ l.filter (fun c => !(w.contains c))) :=
    hsplit.symm.trans (hfp.append_right _)
  have := hperm.map Card.rank
  rw [List.map_append] at this
  exact this

theorem suitOrder_complete {cards : List Card} {c : Card} (hc : c ∈ cards) :
    c.suit ∈ suitOrder cards := by
  unfold suitOrder
  have base : ∀ (ss : List Suit) (acc : List Suit), (c.suit ∈ acc ∨ c.suit ∈ ss) →
      c.suit ∈ ss.foldl (fun acc s => if s ∈ acc then acc else acc ++ [s]) acc := by
    intro ss
    induction ss with
    | nil =>
      intro acc h
      rcases h with h | h
      · simpa using h
      · simp at h
    | cons s ss ih =>
      intro acc h
      simp only [List.foldl_cons]
      by_cases hs : s ∈ acc
      · rw [if_pos hs]
        apply ih
        rcases h with h | h
        · exact Or.inl h
        · rcases List.mem_cons.mp h with rfl | h
          · exact Or.inl hs
          · exact Or.inr h
      · rw [if_neg hs]
        apply ih
        rcases h with h | h
        · exact Or.inl (List.mem_append_left _ h)
        · rcases List.mem_cons.mp h with rfl | h
          · exact Or.inl (List.mem_append_right _ (by simp))
          · exact Or.inr h
  exact base _ [] (Or.inr (List.mem_map_of_mem Card.suit hc))

theorem foldl_max_spec (gs : List (List Card)) : ∀ g : List Card,
    (gs.foldl (fun best h => if best.length < h.length then h else best) g) ∈ g :: gs ∧
    ∀ x ∈ g :: gs, x.length ≤
      (gs.foldl (fun best h => if best.length < h.length then h else best) g).length := by
  induction gs with
  | nil =>
    intro g
    refine ⟨by simp, ?_⟩
    intro x hx
    simp at hx
    subst hx
    exact Nat.le_refl _
  | cons h gs ih =>
    intro g
    simp only [List.foldl_cons]
    by_cases hlt : g.length < h.length
    · rw [if_pos hlt]
      obtain ⟨hmem, hbound⟩ := ih h
      refine ⟨?_, ?_⟩
      · rcases List.mem_cons.mp hmem with he | he
        · rw [he]
          exact List.mem_cons_of_mem _ (List.mem_cons_self _ _)
        · exact List.mem_cons_of_mem _ (List.mem_cons_of_mem _ he)
      · intro x hx
        rcases List.mem_cons.mp hx with rfl | hx
        · exact Nat.le_trans (Nat.le_of_lt hlt) (hbound h (List.mem_cons_self _ _))
        · exact hbound x hx
    · rw [if_neg hlt]
      obtain ⟨hmem, hbound⟩ := ih g
      refine ⟨?_, ?_⟩
      · rcases List.mem_cons.mp hmem with he | he
        · rw [he]
          exact List.mem_cons_self _ _
        · exact List.mem_cons_of_mem _ (List.mem_cons_of_mem _ he)
      · intro x hx
        rcases List.mem_cons.mp hx with rfl | hx
        · exact hbound x (List.mem_cons_self _ _)
        · rcases List.mem_cons.mp hx with rfl | hx
          · exact Nat.le_trans (Nat.le_of_not_lt hlt) (hbound g (List.mem_cons_self _ _))
          · exact hbound x (List.mem_cons_of_mem _ hx)

theorem find_biggest_flush_spec {cards : List Card} (h : cards ≠ []) :
    ∃ s : Suit, find_biggest_flush cards = some (cards.filter (fun c => c.suit == s)) ∧
      ∀ t : Suit, (cards.filter (fun c => c.suit == t)).length ≤
        (cards.filter (fun c => c.suit == s)).length := by
  unfold find_biggest_flush
  cases hso : (suitOrder cards).map (fun s => cards.filter (fun c => c.suit == s)) with
  | nil =>
    exfalso
    cases cards with
    | nil => exact h rfl
    | cons c rest =>
      have hmem := suitOrder_complete (List.mem_cons_self c rest)
      have : (suitOrder (c :: rest)) = [] := List.map_eq_nil.mp hso
      rw [this] at hmem
      simp at hmem
  | cons g gs =>
    obtain ⟨hmem, hbound⟩ := foldl_max_spec gs g
    have hmem2 : (gs.foldl (fun best h => if best.length < h.length then h else best) g) ∈
        (suitOrder cards).map (fun s => cards.filter (fun c => c.suit == s)) := by
      rw [hso]
      exact hmem
    obtain ⟨s, hsmem, hseq⟩ := List.mem_map.mp hmem2
    refine ⟨s, ?_, ?_⟩
    · show some (gs.foldl (fun best h => if best.length < h.length then h else best) g) =
        some (cards.filter (fun c => c.suit == s))
      rw [hseq]
    · intro t
      by_cases ht : t ∈ suitOrder cards
      · have hgmem : cards.filter (fun c => c.suit == t) ∈ g :: gs := by
          rw [← hso]
          exact List.mem_map_of_mem _ ht
        rw [hseq]
        exact hbound _ hgmem
      · have hnone : cards.filter (fun c => c.suit == t) = [] := by
          rw [List.filter_eq_nil_iff]
          intro c hc hct
          apply ht
          have hcs : c.suit = t := by simpa using hct
          rw [← hcs]
          exact suitOrder_complete hc
        rw [hnone]
        simp

theorem filter_suit_length_perm {l1 l2 : List Card} (h : l1.Perm l2) (s : Suit) :
    (l1.filter (fun c => c.suit == s)).length = (l2.filter (fun c => c.suit == s)).length :=
  (h.filter _).length_eq

theorem find_biggest_flush_length_inv {l1 l2 : List Card} (h : l1.Perm l2) :
    Option.map List.length (find_biggest_flush l1) =
      Option.map List.length (find_biggest_flush l2) := by
  cases l1 with
  | nil =>
    have h2 : l2 = [] := h.nil_eq.symm
    subst h2
    rfl
  | cons c rest =>
    have hne1 : (c :: rest : List Card) ≠ [] := by simp
    have hne2 : l2 ≠ [] := by
      intro he
      rw [he] at h
      exact hne1 h.symm.nil_eq.symm
    obtain ⟨s1, hs1, hb1⟩ := find_biggest_flush_spec hne1
    obtain ⟨s2, hs2, hb2⟩ := find_biggest_flush_spec hne2
    rw [hs1, hs2]
    simp only [Option.map_some', Option.some_inj]
    have hle1 : ((c :: rest).filter (fun c => c.suit == s1)).length ≤
        (l2.filter (fun c => c.suit == s2)).length := by
      rw [filter_suit_length_perm h s1]
      exact hb2 s1
    have hle2 : (l2.filter (fun c => c.suit == s2)).length ≤
        ((c :: rest).filter (fun c => c.suit == s1)).length := by
      rw [← filter_suit_length_perm h s2]
      exact hb1 s2
    omega

theorem filter_two_suits_le {l : List Card} {s t : Suit} (hst : s ≠ t) :
    (l.filter (fun c => c.suit == s)).length + (l.filter (fun c => c.suit == t)).length ≤
      l.length := by
  induction l with
  | nil => simp
  | cons c rest ih =>
    simp only [List.filter_cons, List.length_cons]
    by_cases hcs : (c.suit == s) = true
    · have hct : (c.suit == t) = false := by
        have hcse : c.suit = s := by simpa using hcs
        simp [hcse, hst]
      rw [if_pos hcs, if_neg (by simp [hct])]
      simp only [List.length_cons]
      omega
    · rw [if_neg hcs]
      by_cases hct : (c.suit == t) = true
      · rw [if_pos hct]
        simp only [List.length_cons]
        omega
      · rw [if_neg hct]
        omega

theorem find_biggest_flush_group_inv {l1 l2 : List Card} (h : l1.Perm l2)
    (hlen : l1.length ≤ 7) {f1 f2 : List Card}
    (h1 : find_biggest_flush l1 = some f1) (h2 : find_biggest_flush l2 = some f2)
    (hbig : HAND_SIZE ≤ f1.length) : f1.Perm f2 := by
  have hne1 : l1 ≠ [] := by
    intro he
    rw [he] at h1
    cases h1
  have hne2 : l2 ≠ [] := by
    intro he
    rw [he] at h2
    cases h2
  obtain ⟨s1, hs1, hb1⟩ := find_biggest_flush_spec hne1
  obtain ⟨s2, hs2, hb2⟩ := find_biggest_flush_spec hne2
  rw [h1] at hs1
  rw [h2] at hs2
  have hf1 : f1 = l1.filter (fun c => c.suit == s1) := Option.some_inj.mp hs1
  have hf2 : f2 = l2.filter (fun c => c.suit == s2) := Option.some_inj.mp hs2
  have hlenf : f1.length = f2.length := by
    have := find_biggest_flush_length_inv h
    rw [h1, h2] at this
    simpa using this
  by_cases hss : s1 = s2
  · subst hss
    rw [hf1, hf2]
    exact h.filter _
  · exfalso
    have hc1 : HAND_SIZE ≤ (l1.filter (fun c => c.suit == s1)).length := by
      rw [← hf1]; exact hbig
    have hc2 : HAND_SIZE ≤ (l1.filter (fun c => c.suit == s2)).length := by
      rw [filter_suit_length_perm h s2, ← hf2, ← hlenf]
      exact hbig
    have hsum := filter_two_suits_le (l := l1) hss
    have h5 : HAND_SIZE = 5 := rfl
    omega

theorem find_highest_rank_inv {m1 m2 : List Card}
    (hr : (m1.map Card.rank).Perm (m2.map Card.rank)) (n : Nat) :
    Option.map (List.map Card.rank) (find_highest_n_of_a_kind m1 n) =
      Option.map (List.map Card.rank) (find_highest_n_of_a_kind m2 n) := by
  rw [find_highest_mirror, find_highest_mirror]
  exact find_highest_ranks_canonical hr n

theorem find_highest_isSome_inv {m1 m2 : List Card}
    (hr : (m1.map Card.rank).Perm (m2.map Card.rank)) (n : Nat) :
    (find_highest_n_of_a_kind m1 n).isSome = (find_highest_n_of_a_kind m2 n).isSome := by
  have h := find_highest_rank_inv hr n
  cases h1 : find_highest_n_of_a_kind m1 n <;> cases h2 : find_highest_n_of_a_kind m2 n <;>
      rw [h1, h2] at h <;> simp_all

theorem has_pair_inv {m1 m2 : List Card}
    (hr : (m1.map Card.rank).Perm (m2.map Card.rank)) : has_pair m1 = has_pair m2 := by
  unfold has_pair
  rw [find_highest_isSome_inv hr]

theorem has_three_inv {m1 m2 : List Card}
    (hr : (m1.map Card.rank).Perm (m2.map Card.rank)) :
    has_three_of_a_kind m1 = has_three_of_a_kind m2 := by
  unfold has_three_of_a_kind
  rw [find_highest_isSome_inv hr]

theorem has_four_inv {m1 m2 : List Card}
    (hr : (m1.map Card.rank).Perm (m2.map Card.rank)) :
    has_four_of_a_kind m1 = has_four_of_a_kind m2 := by
  unfold has_four_of_a_kind
  rw [find_highest_isSome_inv hr]

theorem remainder_rank_inv {l1 l2 : List Card} (hp : l1.Perm l2) (hn : l1.Nodup) (n : Nat)
    {w1 w2 : List Card} (h1 : find_highest_n_of_a_kind l1 n = some w1)
    (h2 : find_highest_n_of_a_kind l2 n = some w2) :
    ((diffSet l1 w1).map Card.rank).Perm ((diffSet l2 w2).map Card.rank) := by
  have hn2 : l2.Nodup := hp.nodup_iff.mp hn
  have hw : w1.map Card.rank = w2.map Card.rank := by
    have h := find_highest_rank_inv (hp.map Card.rank) n
    rw [h1, h2] at h
    simpa using h
  have p1 := ranks_split hn h1
  have p2 := ranks_split hn2 h2
  have hl : ((w1.map Card.rank) ++ ((diffSet l1 w1).map Card.rank)).Perm
      ((w1.map Card.rank) ++ ((diffSet l2 w2).map Card.rank)) := by
    refine p1.symm.trans ((hp.map Card.rank).trans ?_)
    rw [hw]
    exact p2
  exact (List.perm_append_left_iff _).mp hl

theorem has_full_house_inv {l1 l2 : List Card} (hp : l1.Perm l2) (hn : l1.Nodup) :
    has_full_house l1 = has_full_house l2 := by
  unfold has_full_house
  rw [has_three_inv (hp.map Card.rank)]
  have h := find_highest_rank_inv (hp.map Card.rank) 3
  cases h1 : find_highest_n_of_a_kind l1 3 with
  | none =>
    cases h2 : find_highest_n_of_a_kind l2 3 with
    | none => rfl
    | some w2 => rw [h1, h2] at h; simp at h
  | some w1 =>
    cases h2 : find_highest_n_of_a_kind l2 3 with
    | none => rw [h1, h2] at h; simp at h
    | some w2 =>
      have hrem := remainder_rank_inv hp hn 3 h1 h2
      show (has_three_of_a_kind l2 && has_pair (diffSet l1 w1)) =
        (has_three_of_a_kind l2 && has_pair (diffSet l2 w2))
      rw [has_pair_inv hrem]

theorem has_two_pair_inv {l1 l2 : List Card} (hp : l1.Perm l2) (hn : l1.Nodup) :
    has_two_pair l1 = has_two_pair l2 := by
  unfold has_two_pair
  rw [has_pair_inv (hp.map Card.rank)]
  have h := find_highest_rank_inv (hp.map Card.rank) 2
  cases h1 : find_highest_n_of_a_kind l1 2 with
  | none =>
    cases h2 : find_highest_n_of_a_kind l2 2 with
    | none => rfl
    | some w2 => rw [h1, h2] at h; simp at h
  | some w1 =>
    cases h2 : find_highest_n_of_a_kind l2 2 with
    | none => rw [h1, h2] at h; simp at h
    | some w2 =>
      have hrem := remainder_rank_inv hp hn 2 h1 h2
      show (has_pair l2 && has_pair (diffSet l1 w1)) =
        (has_pair l2 && has_pair (diffSet l2 w2))
      rw [has_pair_inv hrem]

theorem findLongest_rank_inv {m1 m2 : List Card}
    (hr : (m1.map Card.rank).Perm (m2.map Card.rank)) :
    Option.map (List.map Card.rank) (find_longest_straight m1) =
      Option.map (List.map Card.rank) (find_longest_straight m2) := by
  rw [find_longest_mirror, find_longest_mirror]
  exact findLongestRanks_canonical hr

theorem has_straight_inv {m1 m2 : List Card}
    (hr : (m1.map Card.rank).Perm (m2.map Card.rank)) :
    has_straight m1 = has_straight m2 := by
  unfold has_straight
  have hlen : m1.length = m2.length := by
    have h := hr.length_eq
    simpa using h
  rw [hlen]
  have h := findLongest_rank_inv hr
  cases h1 : find_longest_straight m1 with
  | none =>
    cases h2 : find_longest_straight m2 with
    | none => rfl
    | some r2 => rw [h1, h2] at h; simp at h
  | some r1 =>
    cases h2 : find_longest_straight m2 with
    | none => rw [h1, h2] at h; simp at h
    | some r2 =>
      rw [h1, h2] at h
      simp only [Option.map_some', Option.some_inj] at h
      have hrl : r1.length = r2.length := by
        have := congrArg List.length h
        simpa using this
      show (decide (HAND_SIZE ≤ m2.length) && decide (HAND_SIZE ≤ r1.length)) =
        (decide (HAND_SIZE ≤ m2.length) && decide (HAND_SIZE ≤ r2.length))
      rw [hrl]

theorem has_flush_inv {l1 l2 : List Card} (hp : l1.Perm l2) :
    has_flush l1 = has_flush l2 := by
  unfold has_flush
  rw [hp.length_eq]
  have h := find_biggest_flush_length_inv hp
  cases h1 : find_biggest_flush l1 with
  | none =>
    cases h2 : find_biggest_flush l2 with
    | none => rfl
    | some f2 => rw [h1, h2] at h; simp at h
  | some f1 =>
    cases h2 : find_biggest_flush l2 with
    | none => rw [h1, h2] at h; simp at h
    | some f2 =>
      rw [h1, h2] at h
      simp only [Option.map_some', Option.some_inj] at h
      show (decide (HAND_SIZE ≤ l2.length) && decide (HAND_SIZE ≤ f1.length)) =
        (decide (HAND_SIZE ≤ l2.length) && decide (HAND_SIZE ≤ f2.length))
      rw [h]

theorem has_straight_flush_inv {l1 l2 : List Card} (hp : l1.Perm l2) (hn : l1.Nodup)
    (hlen : l1.length ≤ 7) :
    has_straight_flush l1 = has_straight_flush l2 := by
  unfold has_straight_flush
  rw [has_flush_inv hp]
  by_cases hf : has_flush l2 = true
  · have hf1 : has_flush l1 = true := by rw [has_flush_inv hp]; exact hf
    obtain ⟨-, f1, h1, hb1⟩ := has_flush_elim hf1
    obtain ⟨-, f2, h2, hb2⟩ := has_flush_elim hf
    have hgp : f1.Perm f2 := find_biggest_flush_group_inv hp hlen h1 h2 hb1
    rw [h1, h2]
    show (has_flush l2 && has_straight f1) = (has_flush l2 && has_straight f2)
    rw [has_straight_inv (hgp.map Card.rank)]
  · have hfb : has_flush l2 = false := by
      cases hval : has_flush l2
      · rfl
      · exact absurd hval hf
    rw [hfb]
    simp

theorem lastN_map (n : Nat) (l : List Card) :
    (lastN n l).map Card.rank = lastN n (l.map Card.rank) := by
  unfold lastN
  rw [List.map_drop, List.length_map]

theorem fullKey_inj : ∀ a b : Card, fullKey a = fullKey b → a = b := by decide

theorem sortAscFull_canonical {m1 m2 : List Card} (h : m1.Perm m2) :
    sortAscBy fullKey m1 = sortAscBy fullKey m2 := by
  haveI : IsAntisymm Card (fun a b => fullKey a ≤ fullKey b) :=
    ⟨fun a b hab hba => fullKey_inj a b (Nat.le_antisymm hab hba)⟩
  exact List.eq_of_perm_of_sorted
    ((sortAscBy_perm _ m1).trans (h.trans (sortAscBy_perm _ m2).symm))
    (sortAscBy_sorted _ m1) (sortAscBy_sorted _ m2)


/-- Claim C9 (amended): the evaluation is deterministic in the card set
up to ranks: for every two input orderings of the same valid card set
(unique cards, at most 7), rate yields the same HandType and the same
participating-card rank tuple (ties among equivalent groupings broken by
rank, descending).  The suit identity of the chosen participating cards
can differ between orderings (see the counterexample). -/
theorem c9_rank_determinism (l1 l2 : List Card) (hp : l1.Perm l2) (hn : l1.Nodup)
    (hlen : l1.length ≤ 7) :
    (ratingOf l1).hand_type = (ratingOf l2).hand_type ∧
      ranksOf (ratingOf l1) = ranksOf (ratingOf l2) := by
  have hR : (l1.map Card.rank).Perm (l2.map Card.rank) := hp.map Card.rank
  have g1 := has_straight_flush_inv hp hn hlen
  have g2 := has_four_inv hR
  have g3 := has_full_house_inv hp hn
  have g4 := has_flush_inv hp
  have g5 := has_straight_inv hR
  have g6 := has_three_inv hR
  have g7 := has_two_pair_inv hp hn
  have g8 := has_pair_inv hR
  unfold ratingOf rate_hand
  by_cases hsf : has_straight_flush l1 = true
  · have hsf2 : has_straight_flush l2 = true := by rw [← g1]; exact hsf
    rw [if_pos hsf, if_pos hsf2]
    obtain ⟨hf1, f1, hfb1, hs1⟩ := has_straight_flush_elim hsf
    obtain ⟨hf2, f2, hfb2, hs2⟩ := has_straight_flush_elim hsf2
    have hb1x : HAND_SIZE ≤ f1.length := by
      obtain ⟨-, f1x, hfb1x, hb1x⟩ := has_flush_elim hf1
      rw [hfb1] at hfb1x
      rw [Option.some_inj.mp hfb1x]
      exact hb1x
    obtain ⟨-, r1, hr1, hlr1⟩ := has_straight_elim hs1
    obtain ⟨-, r2, hr2, hlr2⟩ := has_straight_elim hs2
    have hgp : f1.Perm f2 := find_biggest_flush_group_inv hp hlen hfb1 hfb2 hb1x
    have hrm : r1.map Card.rank = r2.map Card.rank := by
      have h := findLongest_rank_inv (hgp.map Card.rank)
      rw [hr1, hr2] at h
      simpa using h
    have hpart : (lastN HAND_SIZE r1).map Card.rank = (lastN HAND_SIZE r2).map Card.rank := by
      rw [lastN_map, lastN_map, hrm]
    have hne1 : lastN HAND_SIZE r1 ≠ [] := by
      have hl := lastN_length_of_le (l := r1) (n := HAND_SIZE) hlr1
      intro hnil; rw [hnil] at hl; simp [HAND_SIZE] at hl
    have hne2 : lastN HAND_SIZE r2 ≠ [] := by
      have hl := lastN_length_of_le (l := r2) (n := HAND_SIZE) hlr2
      intro hnil; rw [hnil] at hl; simp [HAND_SIZE] at hl
    cases hh1 : (lastN HAND_SIZE r1).head? with
    | none => have := head?_isSome_of_ne_nil hne1; rw [hh1] at this; simp at this
    | some c01 =>
      cases hh2 : (lastN HAND_SIZE r2).head? with
      | none => have := head?_isSome_of_ne_nil hne2; rw [hh2] at this; simp at this
      | some c02 =>
        have h1m : ((lastN HAND_SIZE r1).map Card.rank).head? = some c01.rank := by
          rw [List.head?_map, hh1]; rfl
        have h2m : ((lastN HAND_SIZE r2).map Card.rank).head? = some c02.rank := by
          rw [List.head?_map, hh2]; rfl
        rw [hpart, h2m] at h1m
        have hcrank : c01.rank = c02.rank := (Option.some_inj.mp h1m).symm
        simp only [hfb1, hfb2, hr1, hr2, hh1, hh2]
        refine ⟨?_, ?_⟩
        · simp only [mkRating, Option.getD_some]
          rw [hcrank]
        · simp only [mkRating, ranksOf, Option.getD_some]
          exact hpart
  · have hsf2 : ¬ has_straight_flush l2 = true := by rw [← g1]; exact hsf
    rw [if_neg hsf, if_neg hsf2]
    by_cases h4 : has_four_of_a_kind l1 = true
    · have h42 : has_four_of_a_kind l2 = true := by rw [← g2]; exact h4
      rw [if_pos h4, if_pos h42]
      have hI := find_highest_rank_inv hR 4
      unfold has_four_of_a_kind at h4 h42
      cases hw1 : find_highest_n_of_a_kind l1 4 with
      | none => rw [hw1] at h4; simp at h4
      | some w1 =>
        cases hw2 : find_highest_n_of_a_kind l2 4 with
        | none => rw [hw2] at h42; simp at h42
        | some w2 =>
          rw [hw1, hw2] at hI
          simp only [Option.map_some', Option.some_inj] at hI
          simp only [hw1, hw2]
          exact ⟨rfl, by simp only [mkRating, ranksOf, Option.getD_some]; exact hI⟩
    · have h42 : ¬ has_four_of_a_kind l2 = true := by rw [← g2]; exact h4
      rw [if_neg h4, if_neg h42]
      by_cases hfh : has_full_house l1 = true
      · have hfh2 : has_full_house l2 = true := by rw [← g3]; exact hfh
        rw [if_pos hfh, if_pos hfh2]
        obtain ⟨t1, ht1, hq1e⟩ := has_full_house_elim hfh
        obtain ⟨t2, ht2, hq2e⟩ := has_full_house_elim hfh2
        have hI3 := find_highest_rank_inv hR 3
        rw [ht1, ht2] at hI3
        simp only [Option.map_some', Option.some_inj] at hI3
        have hrem := remainder_rank_inv hp hn 3 ht1 ht2
        have hI2 := find_highest_rank_inv hrem 2
        unfold has_pair at hq1e hq2e
        cases hq1 : find_highest_n_of_a_kind (diffSet l1 t1) 2 with
        | none => rw [hq1] at hq1e; simp at hq1e
        | some q1 =>
          cases hq2 : find_highest_n_of_a_kind (diffSet l2 t2) 2 with
          | none => rw [hq2] at hq2e; simp at hq2e
          | some q2 =>
            rw [hq1, hq2] at hI2
            simp only [Option.map_some', Option.some_inj] at hI2
            simp only [ht1, ht2, hq1, hq2]
            refine ⟨rfl, ?_⟩
            simp only [mkRating, ranksOf, Option.getD_some, List.map_append]
            rw [hI3, hI2]
      · have hfh2 : ¬ has_full_house l2 = true := by rw [← g3]; exact hfh
        rw [if_neg hfh, if_neg hfh2]
        by_cases hfl : has_flush l1 = true
        · have hfl2 : has_flush l2 = true := by rw [← g4]; exact hfl
          rw [if_pos hfl, if_pos hfl2]
          obtain ⟨-, f1, hfb1, hb1⟩ := has_flush_elim hfl
          obtain ⟨-, f2, hfb2, hb2⟩ := has_flush_elim hfl2
          have hgp : f1.Perm f2 := find_biggest_flush_group_inv hp hlen hfb1 hfb2 hb1
          have hsorted : sortAscBy fullKey f1 = sortAscBy fullKey f2 := sortAscFull_canonical hgp
          simp only [hfb1, hfb2]
          refine ⟨rfl, ?_⟩
          simp only [mkRating, ranksOf, Option.getD_some]
          rw [hsorted]
        · have hfl2 : ¬ has_flush l2 = true := by rw [← g4]; exact hfl
          rw [if_neg hfl, if_neg hfl2]
          by_cases hst : has_straight l1 = true
          · have hst2 : has_straight l2 = true := by rw [← g5]; exact hst
            rw [if_pos hst, if_pos hst2]
            obtain ⟨-, r1, hr1, -⟩ := has_straight_elim hst
            obtain ⟨-, r2, hr2, -⟩ := has_straight_elim hst2
            have hrm : r1.map Card.rank = r2.map Card.rank := by
              have h := findLongest_rank_inv hR
              rw [hr1, hr2] at h
              simpa using h
            simp only [hr1, hr2]
            refine ⟨rfl, ?_⟩
            simp only [mkRating, ranksOf, Option.getD_some]
            rw [lastN_map, lastN_map, hrm]
          · have hst2 : ¬ has_straight l2 = true := by rw [← g5]; exact hst
            rw [if_neg hst, if_neg hst2]
            by_cases h3 : has_three_of_a_kind l1 = true
            · have h32 : has_three_of_a_kind l2 = true := by rw [← g6]; exact h3
              rw [if_pos h3, if_pos h32]
              have hI := find_highest_rank_inv hR 3
              unfold has_three_of_a_kind at h3 h32
              cases hw1 : find_highest_n_of_a_kind l1 3 with
              | none => rw [hw1] at h3; simp at h3
              | some w1 =>
                cases hw2 : find_highest_n_of_a_kind l2 3 with
                | none => rw [hw2] at h32; simp at h32
                | some w2 =>
                  rw [hw1, hw2] at hI
                  simp only [Option.map_some', Option.some_inj] at hI
                  simp only [hw1, hw2]
                  exact ⟨rfl, by simp only [mkRating, ranksOf, Option.getD_some]; exact hI⟩
            · have h32 : ¬ has_three_of_a_kind l2 = true := by rw [← g6]; exact h3
              rw [if_neg h3, if_neg h32]
              by_cases h2p : has_two_pair l1 = true
              · have h2p2 : has_two_pair l2 = true := by rw [← g7]; exact h2p
                rw [if_pos h2p, if_pos h2p2]
                obtain ⟨t1, ht1, hq1e⟩ := has_two_pair_elim h2p
                obtain ⟨t2, ht2, hq2e⟩ := has_two_pair_elim h2p2
                have hI1 := find_highest_rank_inv hR 2
                rw [ht1, ht2] at hI1
                simp only [Option.map_some', Option.some_inj] at hI1
                have hrem := remainder_rank_inv hp hn 2 ht1 ht2
                have hI2 := find_highest_rank_inv hrem 2
                unfold has_pair at hq1e hq2e
                cases hq1 : find_highest_n_of_a_kind (diffSet l1 t1) 2 with
                | none => rw [hq1] at hq1e; simp at hq1e
                | some q1 =>
                  cases hq2 : find_highest_n_of_a_kind (diffSet l2 t2) 2 with
                  | none => rw [hq2] at hq2e; simp at hq2e
                  | some q2 =>
                    rw [hq1, hq2] at hI2
                    simp only [Option.map_some', Option.some_inj] at hI2
                    simp only [ht1, ht2, hq1, hq2]
                    refine ⟨rfl, ?_⟩
                    simp only [mkRating, ranksOf, Option.getD_some, List.map_append]
                    rw [hI1, hI2]
              · have h2p2 : ¬ has_two_pair l2 = true := by rw [← g7]; exact h2p
                rw [if_neg h2p, if_neg h2p2]
                by_cases hpr : has_pair l1 = true
                · have hpr2 : has_pair l2 = true := by rw [← g8]; exact hpr
                  rw [if_pos hpr, if_pos hpr2]
                  have hI := find_highest_rank_inv hR 2
                  unfold has_pair at hpr hpr2
                  cases hw1 : find_highest_n_of_a_kind l1 2 with
                  | none => rw [hw1] at hpr; simp at hpr
                  | some w1 =>
                    cases hw2 : find_highest_n_of_a_kind l2 2 with
                    | none => rw [hw2] at hpr2; simp at hpr2
                    | some w2 =>
                      rw [hw1, hw2] at hI
                      simp only [Option.map_some', Option.some_inj] at hI
                      simp only [hw1, hw2]
                      exact ⟨rfl, by simp only [mkRating, ranksOf, Option.getD_some]; exact hI⟩
                · have hpr2 : ¬ has_pair l2 = true := by rw [← g8]; exact hpr
                  rw [if_neg hpr, if_neg hpr2]
                  exact ⟨rfl, rfl⟩

/-- Witness for claim C9 at a concrete pair of orderings of one 6-card set. -/
theorem c9_witness :
    (ratingOf [⟨Rank.two, Suit.spades⟩, ⟨Rank.three, Suit.clubs⟩, ⟨Rank.four, Suit.spades⟩,
      ⟨Rank.five, Suit.spades⟩, ⟨Rank.six, Suit.hearts⟩, ⟨Rank.six, Suit.diamonds⟩]).hand_type =
      (ratingOf [⟨Rank.two, Suit.spades⟩, ⟨Rank.three, Suit.clubs⟩, ⟨Rank.four, Suit.spades⟩,
        ⟨Rank.five, Suit.spades⟩, ⟨Rank.six, Suit.diamonds⟩, ⟨Rank.six, Suit.hearts⟩]).hand_type ∧
    ranksOf (ratingOf [⟨Rank.two, Suit.spades⟩, ⟨Rank.three, Suit.clubs⟩,
      ⟨Rank.four, Suit.spades⟩, ⟨Rank.five, Suit.spades⟩, ⟨Rank.six, Suit.hearts⟩,
      ⟨Rank.six, Suit.diamonds⟩]) =
      ranksOf (ratingOf [⟨Rank.two, Suit.spades⟩, ⟨Rank.three, Suit.clubs⟩,
        ⟨Rank.four, Suit.spades⟩, ⟨Rank.five, Suit.spades⟩, ⟨Rank.six, Suit.diamonds⟩,
        ⟨Rank.six, Suit.hearts⟩]) :=
  c9_rank_determinism
    [⟨Rank.two, Suit.spades⟩, ⟨Rank.three, Suit.clubs⟩, ⟨Rank.four, Suit.spades⟩,
      ⟨Rank.five, Suit.spades⟩, ⟨Rank.six, Suit.hearts⟩, ⟨Rank.six, Suit.diamonds⟩]
    [⟨Rank.two, Suit.spades⟩, ⟨Rank.three, Suit.clubs⟩, ⟨Rank.four, Suit.spades⟩,
      ⟨Rank.five, Suit.spades⟩, ⟨Rank.six, Suit.diamonds⟩, ⟨Rank.six, Suit.hearts⟩]
    (by decide) (by decide) (by decide)

/-- Claim C9 counterexample: two orderings of the same 6-card set (a
2-6 straight holding both red sixes) yield different participating-card
tuples — the straight keeps whichever six appears first — so the choice
of participating cards is not determined by the card set alone. -/
theorem c9_counterexample :
    ([⟨Rank.two, Suit.spades⟩, ⟨Rank.three, Suit.clubs⟩, ⟨Rank.four, Suit.spades⟩,
      ⟨Rank.five, Suit.spades⟩, ⟨Rank.six, Suit.hearts⟩,
      (⟨Rank.six, Suit.diamonds⟩ : Card)].Perm
     [⟨Rank.two, Suit.spades⟩, ⟨Rank.three, Suit.clubs⟩, ⟨Rank.four, Suit.spades⟩,
      ⟨Rank.five, Suit.spades⟩, ⟨Rank.six, Suit.diamonds⟩, ⟨Rank.six, Suit.hearts⟩]) ∧
    (ratingOf [⟨Rank.two, Suit.spades⟩, ⟨Rank.three, Suit.clubs⟩, ⟨Rank.four, Suit.spades⟩,
      ⟨Rank.five, Suit.spades⟩, ⟨Rank.six, Suit.hearts⟩, ⟨Rank.six, Suit.diamonds⟩]).participating ≠
    (ratingOf [⟨Rank.two, Suit.spades⟩, ⟨Rank.three, Suit.clubs⟩, ⟨Rank.four, Suit.spades⟩,
      ⟨Rank.five, Suit.spades⟩, ⟨Rank.six, Suit.diamonds⟩, ⟨Rank.six, Suit.hearts⟩]).participating := by
  refine ⟨?_, ?_⟩ <;> decide
